import Mathlib

/-!
# OpenRAVE plugin database (`src/libopenrave/plugindatabase.cpp`)

A shallow embedding of `DynamicRaveDatabase`: the ordered plugin list, the
map of library handles, the interface creation protocol (`Create`), the
maintenance operations (`LoadPlugin`, `ReloadPlugins`, `AddVirtualPlugin`),
the lifecycle broadcasts, the discovery walk (`_LoadPluginsFromPath`), and
`Init` with its search-path de-duplication loop and `Destroy`.

Calls into plugin code and into the dynamic loader are recorded in a call
log (`Call`), so that statements such as "the factory is not invoked" are
statements about the log.
-/

namespace OpenRAVE

/-! ## Data model -/

/-- The interface categories. `Create` names five enumerators in its
`switch`; every other enumerator of the enum takes the `default:` branch and
is represented by `PT_Other`. -/
inductive InterfaceType
  | PT_KinBody
  | PT_PhysicsEngine
  | PT_CollisionChecker
  | PT_Robot
  | PT_Trajectory
  | PT_Other (n : Nat)
  deriving DecidableEq, Repr

open InterfaceType

/-- What `Create` reads and writes on an interface instance:
`GetInterfaceType()`, the `IsRobot()` self-report, and the two string fields
`__strpluginname` and `__strxmlid`. -/
structure InterfaceBase where
  interfaceType : InterfaceType
  isRobot : Bool
  __strpluginname : String
  __strxmlid : String
  deriving DecidableEq, Repr

/-- Outcome of one call of a plugin's `OpenRAVECreateInterface`: it throws a
`std::exception` (`threw`), it returns a pointer that may be null, or it
throws something that is not a `std::exception` (`threwOther`), which the
handler of line 294 does not catch. -/
inductive CreateOutcome
  | threw
  | returned (pointer : Option InterfaceBase)
  | threwOther
  deriving DecidableEq, Repr

/-- Outcome of one call of a lifecycle hook of a plugin: it returns, or it
throws. -/
inductive HookOutcome
  | returned
  | threw
  deriving DecidableEq, Repr

/-- A plugin descriptor (`RavePlugin`, held through `PluginPtr`). The hash
arguments and the environment handed to the factory are fixed for a given
host and environment, so the factory is a function of `(type, name)`. The
two lifecycle hooks are the plugin's own `OnRaveInitialized()` and
`OnRavePreDestroy()`. -/
structure RavePlugin where
  pluginPath : String
  pluginName : String
  interfaces : InterfaceType → List String
  badInterfaces : List (InterfaceType × String)
  OpenRAVECreateInterface : InterfaceType → String → CreateOutcome
  isVirtual : Bool
  OnRaveInitialized : HookOutcome := .returned
  OnRavePreDestroy : HookOutcome := .returned

/-- Modelled from the spec: `RavePlugin::HasInterface` is declared in
`plugin.h`, which is not among the sources. True iff `name` appears in
`provided_interfaces[type]` and `(type, name)` is not in `bad_interfaces`;
names are compared exactly. -/
def RavePlugin.HasInterface (plugin : RavePlugin) (type : InterfaceType) (name : String) : Bool :=
  decide (name ∈ plugin.interfaces type) && !decide ((type, name) ∈ plugin.badInterfaces)

/-- Modelled from the spec: `RavePlugin::AddBadInterface` is declared in
`plugin.h`, which is not among the sources. Idempotent insertion of
`(type, name)` into the blacklist. -/
def RavePlugin.AddBadInterface (plugin : RavePlugin) (type : InterfaceType) (name : String) :
    RavePlugin :=
  if (type, name) ∈ plugin.badInterfaces then plugin
  else { plugin with badInterfaces := plugin.badInterfaces ++ [(type, name)] }

/-- One entry of the call log. Plugins are identified by their index in
`_vPlugins` at the time of the call. -/
inductive Call
  | dlopen (path : String)
  | HasInterface (plugin : Nat) (type : InterfaceType) (name : String)
  | OpenRAVECreateInterface (plugin : Nat) (type : InterfaceType) (name : String)
  | AddBadInterface (plugin : Nat) (type : InterfaceType) (name : String)
  deriving DecidableEq, Repr

/-! ## `std::string` helpers used by `Create` -/

/-- Embeds `std::string::find_first_of(c)`: index of the first occurrence of `c`;
`none` stands for `npos`. -/
def find_first_of : List Char → Char → Option Nat
  | [], _ => none
  | x :: xs, c => if x = c then some 0 else (find_first_of xs c).map (· + 1)

/-- Embeds `std::min<size_t>(name.find_first_of(' '), name.size())`; `npos` is the
largest `size_t`, so the minimum with it is `name.size()`. -/
def position (name : String) : Nat :=
  match find_first_of name.data ' ' with
  | some i => min i name.data.length
  | none => name.data.length

/-- Embeds `name.substr(0, position)`. -/
def substr0 (name : String) (n : Nat) : String := String.mk (name.data.take n)

/-! ## `DynamicRaveDatabase::Create` -/

/-- State of `Create` when it is left: the returned pointer, the plugin list
(plugins are shared objects, `AddBadInterface` mutates them in place), the
calls made, in order, and whether `Create` was left by an exception instead
of a `return`; nothing is returned then, and `pointer` is `none`. -/
structure CreateResult where
  pointer : Option InterfaceBase
  plugins : List RavePlugin
  calls : List Call
  escaped : Bool

/-- The `name.empty()` block (lines 267-280): the pointer and the name after
it. For `PT_KinBody` a `KinBody` is constructed directly (a plain `KinBody`
reports `IsRobot() == false`) and its `__strxmlid` is set to `""`. -/
def createDefault (type : InterfaceType) (name : String) : Option InterfaceBase × String :=
  if name.data = [] then
    match type with
    | PT_KinBody =>
      (some { interfaceType := PT_KinBody, isRobot := false,
              __strpluginname := "", __strxmlid := "" }, name)
    | PT_PhysicsEngine => (none, "GenericPhysicsEngine")
    | PT_CollisionChecker => (none, "GenericCollisionChecker")
    | PT_Robot => (none, "GenericRobot")
    | PT_Trajectory => (none, "GenericTrajectory")
    | _ => (none, name)
  else (none, name)

/-- The `for (const PluginPtr& plugin : _vPlugins)` loop (lines 290-310).
`pointer` is the local variable carried from one iteration to the next and
`idx` the index of the head of the list in `_vPlugins`. -/
def scanPlugins (type : InterfaceType) (name interfacename : String) :
    Option InterfaceBase → Nat → List RavePlugin → CreateResult
  | pointer, _, [] => ⟨pointer, [], [], false⟩
  | pointer, idx, plugin :: rest =>
    if plugin.HasInterface type interfacename then
      -- try / catch (const std::exception&) around the factory call; `none`
      -- when the factory throws something else, which is not caught
      let caught : Option (Option InterfaceBase × RavePlugin × List Call) :=
        match plugin.OpenRAVECreateInterface type name with
        | .returned p => some (p, plugin, [])
        | .threw =>
          some (pointer, plugin.AddBadInterface type name, [Call.AddBadInterface idx type name])
        | .threwOther => none
      match caught with
      | none =>
        -- the exception leaves the loop and `Create`
        ⟨none, plugin :: rest,
          [Call.HasInterface idx type interfacename, Call.OpenRAVECreateInterface idx type name],
          true⟩
      | some tried =>
        let head : List Call :=
          [Call.HasInterface idx type interfacename, Call.OpenRAVECreateInterface idx type name]
            ++ tried.2.2
        match tried.1 with
        | some p =>
          if p.interfaceType ≠ type then
            let r := scanPlugins type name interfacename none (idx + 1) rest
            ⟨r.pointer, tried.2.1.AddBadInterface type interfacename :: r.plugins,
              head ++ [Call.AddBadInterface idx type interfacename] ++ r.calls, r.escaped⟩
          else
            -- break
            ⟨some { p with __strpluginname := plugin.pluginPath, __strxmlid := name },
              tried.2.1 :: rest, head, false⟩
        | none =>
          let r := scanPlugins type name interfacename none (idx + 1) rest
          ⟨r.pointer, tried.2.1 :: r.plugins, head ++ r.calls, r.escaped⟩
    else
      let r := scanPlugins type name interfacename pointer (idx + 1) rest
      ⟨r.pointer, plugin :: r.plugins, Call.HasInterface idx type interfacename :: r.calls,
        r.escaped⟩

/-- The extra check on Robot objects (lines 314-321). -/
def robotCheck (type : InterfaceType) (pointer : Option InterfaceBase) : Option InterfaceBase :=
  match pointer with
  | some p => if type = PT_Robot ∧ p.isRobot = false then none else some p
  | none => none

/-- The final compatibility check (lines 323-337). -/
def finalCheck (type : InterfaceType) (pointer : Option InterfaceBase) : Option InterfaceBase :=
  match pointer with
  | none => none
  | some p =>
    if p.interfaceType = type then some p
    else if p.interfaceType = PT_Robot ∧ type = PT_KinBody then some p
    else none

/-- Embeds `DynamicRaveDatabase::Create(penv, type, name)` (lines 264-338). -/
def Create (_vPlugins : List RavePlugin) (type : InterfaceType) (name : String) : CreateResult :=
  let d := createDefault type name
  let name := d.2
  let scanned : Option CreateResult :=
    match d.1 with
    | some p => some ⟨some p, _vPlugins, [], false⟩
    | none =>
      if position name = 0 then none
      else some (scanPlugins type name (substr0 name (position name)) none 0 _vPlugins)
  match scanned with
  | none => ⟨none, _vPlugins, [], false⟩
  | some r =>
    if r.escaped then ⟨none, r.plugins, r.calls, true⟩
    else ⟨finalCheck type (robotCheck type r.pointer), r.plugins, r.calls, false⟩

/-- Embeds `DynamicRaveDatabase::HasInterface(type, interfacename)` (lines 351-359). -/
def HasInterface (_vPlugins : List RavePlugin) (type : InterfaceType) (interfacename : String) :
    Bool :=
  _vPlugins.any (fun plugin => plugin.HasInterface type interfacename)

/-! ## The registry and its maintenance operations -/

/-- Outcome of calling the resolved `CreatePlugin` symbol: it throws a
`std::exception` (`threw`), it returns a `RavePlugin*` that may be null, or
it throws something that is not a `std::exception` (`threwOther`), which the
handler of line 451 does not catch. -/
inductive PluginExportFn_Create
  | threw
  | returned (plugin : Option RavePlugin)
  | threwOther

/-- A `DynamicLibrary` with a non-null handle; `CreatePlugin` is what
`LoadSymbol("CreatePlugin", errstr)` resolves to, `none` when the symbol is
missing. -/
structure DynamicLibrary where
  CreatePlugin : Option PluginExportFn_Create

/-- The dynamic loader behind the `DynamicLibrary(path)` constructor: `none`
is the null handle (the module failed to load). -/
abbrev Loader := String → Option DynamicLibrary

/-- The members of `DynamicRaveDatabase`. -/
structure DynamicRaveDatabase where
  _vPlugins : List RavePlugin
  _mapLibraryHandles : List (String × DynamicLibrary)
  _vPluginDirs : List String

/-- Embeds `std::map::emplace`: inserts only when the key is absent. -/
def emplace (m : List (String × DynamicLibrary)) (key : String) (dylib : DynamicLibrary) :
    List (String × DynamicLibrary) :=
  if m.any (fun e => e.1 == key) then m else m ++ [(key, dylib)]

/-- Result of a load operation: the returned flag, the registry afterwards,
the calls made, and whether the operation was left by an exception instead
of a `return`; nothing is returned then, and `ok` is `false`. -/
structure LoadResult where
  ok : Bool
  db : DynamicRaveDatabase
  calls : List Call
  escaped : Bool

/-- Embeds `DynamicRaveDatabase::_LoadPlugin(strpath)` (lines 435-463). -/
def _LoadPlugin (loader : Loader) (db : DynamicRaveDatabase) (strpath : String) : LoadResult :=
  match loader strpath with
  | none => ⟨false, db, [Call.dlopen strpath], false⟩
  | some dylib =>
    match dylib.CreatePlugin with
    | none => ⟨false, db, [Call.dlopen strpath], false⟩
    | some fn =>
      -- try / catch (const std::exception&) around the factory: `plugin` stays
      -- `nullptr` when the factory throws a `std::exception`; the outer `none`
      -- is a throw of something else, which is not caught
      let caught : Option (Option RavePlugin) :=
        match fn with
        | .threw => some none
        | .returned p => some p
        | .threwOther => none
      match caught with
      | none => ⟨false, db, [Call.dlopen strpath], true⟩
      | some none => ⟨false, db, [Call.dlopen strpath], false⟩
      | some (some plugin) =>
        ⟨true,
          { db with
            _mapLibraryHandles := emplace db._mapLibraryHandles strpath dylib
            _vPlugins := db._vPlugins ++ [{ plugin with pluginPath := strpath }] },
          [Call.dlopen strpath], false⟩

/-- The reload branch of `LoadPlugin` (lines 239-243), for `it` at index `i`:
`std::rotate(it, it + 1, end)` followed by `pop_back()`. -/
def rotateAndPop (v : List RavePlugin) (i : Nat) : List RavePlugin :=
  (v.take i ++ (v.drop i).rotate 1).dropLast

/-- Embeds `DynamicRaveDatabase::LoadPlugin(libraryname)` (lines 233-245). -/
def LoadPlugin (loader : Loader) (db : DynamicRaveDatabase) (libraryname : String) : LoadResult :=
  let it := db._vPlugins.findIdx
    (fun plugin => plugin.pluginName == libraryname || plugin.pluginPath == libraryname)
  let db1 : DynamicRaveDatabase :=
    if it < db._vPlugins.length then { db with _vPlugins := rotateAndPop db._vPlugins it }
    else db
  _LoadPlugin loader db1 libraryname

/-- State of an operation that loads several candidates: the registry, the
calls made so far, and whether an exception has left the operation. -/
structure WalkState where
  db : DynamicRaveDatabase
  calls : List Call
  escaped : Bool

/-- The loop of `ReloadPlugins` over the snapshot (lines 228-230); an
exception that leaves `_LoadPlugin` leaves the loop. -/
def reloadLoop (loader : Loader) : List RavePlugin → WalkState → WalkState
  | [], st => st
  | plugin :: rest, st =>
    let r := _LoadPlugin loader st.db plugin.pluginPath
    if r.escaped then ⟨r.db, st.calls ++ r.calls, true⟩
    else reloadLoop loader rest ⟨r.db, st.calls ++ r.calls, false⟩

/-- Embeds `DynamicRaveDatabase::ReloadPlugins()` (lines 221-231). -/
def ReloadPlugins (loader : Loader) (db : DynamicRaveDatabase) : WalkState :=
  let vPlugins := db._vPlugins
  reloadLoop loader vPlugins ⟨db, [], false⟩

/-- Modelled from the spec: the `VirtualPlugin` class is declared in
`plugindatabase.h`, which is not among the sources. A descriptor with no
backing file that provides exactly `(type, name)`, starts with an empty
blacklist and whose factory is the closure supplied by the embedder;
`createfn` receives the requested name, from which its input stream is made.
The path is the `__internal__` of the comment on line 304. -/
def VirtualPlugin (type : InterfaceType) (name : String) (createfn : String → CreateOutcome) :
    RavePlugin :=
  { pluginPath := "__internal__", pluginName := "__internal__",
    interfaces := fun t => if t = type then [name] else [],
    badInterfaces := [],
    OpenRAVECreateInterface := fun _ n => createfn n,
    isVirtual := true }

/-- Embeds `DynamicRaveDatabase::AddVirtualPlugin(type, name, createfn)`
(lines 247-252). -/
def AddVirtualPlugin (db : DynamicRaveDatabase) (type : InterfaceType) (name : String)
    (createfn : String → CreateOutcome) : DynamicRaveDatabase :=
  { db with _vPlugins := db._vPlugins ++ [VirtualPlugin type name createfn] }

/-! ## Lifecycle broadcasts -/

/-- State of a broadcast when it is left: the indices of the plugins whose
hook was called, in call order, and whether an exception left the loop. -/
structure HookResult where
  called : List Nat
  threw : Bool
  deriving DecidableEq, Repr

/-- The range-for loop shared by `OnRaveInitialized` and `OnRavePreDestroy`
(lines 205-209 and 214-218); `idx` is the index of the head of the list. The
loop has no handler, so a throwing hook ends it. Every pointer stored in
`_vPlugins` is non-null, so the `if (pluginPtr)` test always passes. -/
def hookLoop (hook : RavePlugin → HookOutcome) : Nat → List RavePlugin → HookResult
  | _, [] => ⟨[], false⟩
  | idx, pluginPtr :: rest =>
    match hook pluginPtr with
    | .threw => ⟨[idx], true⟩
    | .returned =>
      let r := hookLoop hook (idx + 1) rest
      ⟨idx :: r.called, r.threw⟩

/-- Embeds `DynamicRaveDatabase::OnRaveInitialized()` (lines 203-210). -/
def OnRaveInitialized (_vPlugins : List RavePlugin) : HookResult :=
  hookLoop (fun pluginPtr => pluginPtr.OnRaveInitialized) 0 _vPlugins

/-- Embeds `DynamicRaveDatabase::OnRavePreDestroy()` (lines 212-219). -/
def OnRavePreDestroy (_vPlugins : List RavePlugin) : HookResult :=
  hookLoop (fun pluginPtr => pluginPtr.OnRavePreDestroy) 0 _vPlugins

/-! ## The de-duplication loop of `Init` (lines 131-141) -/

/-- The inner loop `for(; jplugindir < iplugindir; jplugindir++)`; the value
is `jplugindir` when the loop is left. The first argument bounds the
iterations; `iplugindir` of them always suffice. -/
def dedupInner (vplugindirs : List String) (iplugindir : Nat) : Nat → Nat → Nat
  | 0, jplugindir => jplugindir
  | fuel + 1, jplugindir =>
    if jplugindir < iplugindir then
      if vplugindirs[iplugindir]? = vplugindirs[jplugindir]? then jplugindir
      else dedupInner vplugindirs iplugindir fuel (jplugindir + 1)
    else jplugindir

/-- The outer loop `for (iplugindir = ...; iplugindir > 0; iplugindir--)`,
entered with the given `iplugindir`. -/
def dedupOuter : Nat → List String → List String
  | 0, vplugindirs => vplugindirs
  | i + 1, vplugindirs =>
    let jplugindir := dedupInner vplugindirs (i + 1) (i + 1) 0
    let v := if jplugindir < i + 1 then vplugindirs.eraseIdx (i + 1) else vplugindirs
    dedupOuter i v

/-- The whole de-duplication of `Init`: `iplugindir` starts at
`vplugindirs.size() - 1`, which is `-1` for the empty vector, where the loop
body never runs. -/
def dedupPluginDirs (vplugindirs : List String) : List String :=
  dedupOuter (vplugindirs.length - 1) vplugindirs

/-- Reference de-duplication in the spec's words: duplicates removed keeping
the earliest occurrence. -/
def keepFirstOccurrence : List String → List String
  | [] => []
  | x :: xs => x :: (keepFirstOccurrence xs).filter (fun y => y ≠ x)

/-! ## Discovery: `_LoadPluginsFromPath`, `Init` and `Destroy` -/

/-- What the file system shows at a path, as the `boost::filesystem` queries
of `_LoadPluginsFromPath` see it. A regular file carries what its
`path.extension()` returns (`""` when `has_extension()` is false) and whether
`fs::is_empty` holds for it; a directory carries the entries its
`directory_iterator` yields, in order, an entry being the node found at
`entry.path()`; `other` is a path that is neither, or one whose query throws,
which the function-try-block of the call catches. -/
inductive FsNode
  | file (path : String) (extension : String) (isEmpty : Bool)
  | dir (path : String) (entries : List FsNode)
  | other (path : String)

/-- Embeds `fs::is_directory(entry)`. -/
def FsNode.isDirectory : FsNode → Bool
  | .dir _ _ => true
  | _ => false

mutual
/-- The body of `_LoadPluginsFromPath(strpath, recurse)` in the
`HAVE_BOOST_FILESYSTEM` build (lines 372-390), run on the node found at
`strpath`; the state is the registry with the calls made so far. The handler
of lines 430-433 catches `std::exception` only, so an exception that leaves
`_LoadPlugin` leaves this call as well. -/
def loadPluginsFromNode (loader : Loader) (PLUGIN_EXT : String) :
    WalkState → FsNode → Bool → WalkState
  | st, .other _, _ => st
  | st, .file path extension isEmpty, _ =>
    if isEmpty then st
    else if extension ≠ "" ∧ extension = PLUGIN_EXT then
      ⟨(_LoadPlugin loader st.db path).db, st.calls ++ (_LoadPlugin loader st.db path).calls,
        (_LoadPlugin loader st.db path).escaped⟩
    else st
  | st, .dir _ entries, recurse =>
    if entries.isEmpty then st
    else loadPluginsFromEntries loader PLUGIN_EXT st entries recurse
/-- The loop over the `directory_iterator` (lines 376-382); an exception that
leaves a nested call leaves the loop. -/
def loadPluginsFromEntries (loader : Loader) (PLUGIN_EXT : String) :
    WalkState → List FsNode → Bool → WalkState
  | st, [], _ => st
  | st, entry :: rest, recurse =>
    let st1 :=
      if entry.isDirectory && recurse then loadPluginsFromNode loader PLUGIN_EXT st entry true
      else loadPluginsFromNode loader PLUGIN_EXT st entry false
    if st1.escaped then st1
    else loadPluginsFromEntries loader PLUGIN_EXT st1 rest recurse
end

/-- What `Init` and the discovery walk take from the host: the dynamic
loader, the file system, the platform's `PLUGIN_EXT`, the tokens of the
`OPENRAVE_PLUGINS` variable (`none` when `getenv` returns null),
`OPENRAVE_PLUGINS_INSTALL_DIR`, `boost::filesystem::absolute`, and the default
of the `recurse` argument, which is set in the header. -/
structure Host where
  loader : Loader
  lookup : String → FsNode
  PLUGIN_EXT : String
  OPENRAVE_PLUGINS : Option (List String)
  OPENRAVE_PLUGINS_INSTALL_DIR : String
  absolute : String → String
  recurse : Bool

/-- Embeds `DynamicRaveDatabase::_LoadPluginsFromPath(strpath, recurse)` (lines
361-390 and the handler of lines 430-433). -/
def _LoadPluginsFromPath (host : Host) (db : DynamicRaveDatabase) (strpath : String)
    (recurse : Bool) : WalkState :=
  loadPluginsFromNode host.loader host.PLUGIN_EXT ⟨db, [], false⟩ (host.lookup strpath) recurse

/-- The last loop of `Init` (lines 189-192) over the plugin directories; an
exception that leaves `_LoadPluginsFromPath` leaves `Init`. -/
def initLoadLoop (host : Host) : List String → WalkState → WalkState
  | [], st => st
  | entry :: rest, st =>
    let r := _LoadPluginsFromPath host st.db entry host.recurse
    if r.escaped then ⟨r.db, st.calls ++ r.calls, true⟩
    else initLoadLoop host rest ⟨r.db, st.calls ++ r.calls, false⟩

/-- Embeds `DynamicRaveDatabase::Init()` (lines 122-193), in the build with
`HAVE_BOOST_FILESYSTEM` and without `_WIN32`. -/
def Init (host : Host) (db : DynamicRaveDatabase) : WalkState :=
  match host.OPENRAVE_PLUGINS with
  | none => ⟨db, [], false⟩
  | some tokens =>
    let vplugindirs := dedupPluginDirs tokens
    let installdir := host.OPENRAVE_PLUGINS_INSTALL_DIR
    let bExists := vplugindirs.any (fun itname => host.absolute installdir == host.absolute itname)
    let vplugindirs := if !bExists then vplugindirs ++ [installdir] else vplugindirs
    let _vPluginDirs := db._vPluginDirs ++ vplugindirs.filter (fun entry => entry.data ≠ [])
    initLoadLoop host _vPluginDirs ⟨{ db with _vPluginDirs := _vPluginDirs }, [], false⟩

/-- The loop of `Destroy` (lines 197-200); the first argument bounds the
iterations, `_vPlugins.size()` of them empty the list. -/
def destroyLoop : Nat → List RavePlugin → List RavePlugin
  | 0, _vPlugins => _vPlugins
  | fuel + 1, _vPlugins =>
    if _vPlugins.isEmpty then _vPlugins else destroyLoop fuel _vPlugins.dropLast

/-- Embeds `DynamicRaveDatabase::Destroy()` (lines 195-201). -/
def Destroy (db : DynamicRaveDatabase) : DynamicRaveDatabase :=
  { db with _vPlugins := destroyLoop db._vPlugins.length db._vPlugins }

/-- The operations on the registry. -/
inductive Operation
  | Init
  | LoadPlugin (libraryname : String)
  | ReloadPlugins
  | AddVirtualPlugin (type : InterfaceType) (name : String) (createfn : String → CreateOutcome)
  | Create (type : InterfaceType) (name : String)
  | Destroy

/-- The registry after one operation, whether the operation returned or was
left by an exception. -/
def Operation.apply (host : Host) (db : DynamicRaveDatabase) : Operation → DynamicRaveDatabase
  | .Init => (OpenRAVE.Init host db).db
  | .LoadPlugin libraryname => (OpenRAVE.LoadPlugin host.loader db libraryname).db
  | .ReloadPlugins => (OpenRAVE.ReloadPlugins host.loader db).db
  | .AddVirtualPlugin type name createfn => OpenRAVE.AddVirtualPlugin db type name createfn
  | .Create type name => { db with _vPlugins := (OpenRAVE.Create db._vPlugins type name).plugins }
  | .Destroy => OpenRAVE.Destroy db

/-- The registry after a sequence of operations, first to last. -/
def runOperations (host : Host) : List Operation → DynamicRaveDatabase → DynamicRaveDatabase
  | [], db => db
  | op :: rest, db => runOperations host rest (op.apply host db)

/-- The registry invariant: the path of every dynamic descriptor is a key of
`_mapLibraryHandles`. -/
def handlesCoverPlugins (db : DynamicRaveDatabase) : Bool :=
  db._vPlugins.all (fun plugin =>
    plugin.isVirtual || (db._mapLibraryHandles.map Prod.fst).contains plugin.pluginPath)

/-- The registry `after` keeps every library handle of `before` in place, and
satisfies the invariant if `before` does. -/
def Preserves (before after : DynamicRaveDatabase) : Prop :=
  (handlesCoverPlugins before = true → handlesCoverPlugins after = true) ∧
    before._mapLibraryHandles <+: after._mapLibraryHandles

/-- Whether the load of the candidate at `path` is left by an exception: the
module loads, exports `CreatePlugin`, and the factory throws something that
is not a `std::exception`. -/
def loadEscapes (loader : Loader) (path : String) : Bool :=
  match loader path with
  | none => false
  | some dylib =>
    match dylib.CreatePlugin with
    | some .threwOther => true
    | _ => false

/-- One `_LoadPlugin` per candidate path, in order, left at the first load
that an exception leaves. -/
def loadCandidates (loader : Loader) : List String → WalkState → WalkState
  | [], st => st
  | path :: rest, st =>
    let r := _LoadPlugin loader st.db path
    if r.escaped then ⟨r.db, st.calls ++ r.calls, true⟩
    else loadCandidates loader rest ⟨r.db, st.calls ++ r.calls, false⟩

/-- The candidate paths up to and including the first one whose load is left
by an exception; all of them when there is none. -/
def attemptedPaths (loader : Loader) : List String → List String
  | [] => []
  | path :: rest =>
    if loadEscapes loader path then [path] else path :: attemptedPaths loader rest

/-! ## Summaries of one loop iteration, used to state lemmas about the scan -/

/-- The instance the loop would return from `plugin`: its factory returns a
non-null instance of the requested type, tagged with the plugin's path and
the requested name. -/
def made (type : InterfaceType) (name : String) (plugin : RavePlugin) : Option InterfaceBase :=
  match plugin.OpenRAVECreateInterface type name with
  | .returned (some inst) =>
    if inst.interfaceType = type then
      some { inst with __strpluginname := plugin.pluginPath, __strxmlid := name }
    else none
  | _ => none

/-- The plugin has the interface and its factory returns a non-null instance
of the requested type. -/
def satisfies (type : InterfaceType) (name interfacename : String) (plugin : RavePlugin) : Bool :=
  plugin.HasInterface type interfacename && (made type name plugin).isSome

/-- The plugin has the interface and its factory throws something that is
not a `std::exception`, so that the call leaves `Create`. -/
def escapes (type : InterfaceType) (name interfacename : String) (plugin : RavePlugin) : Bool :=
  plugin.HasInterface type interfacename &&
    decide (plugin.OpenRAVECreateInterface type name = .threwOther)

/-- The scan ends at the plugin: by `break` or by an exception. -/
def stops (type : InterfaceType) (name interfacename : String) (plugin : RavePlugin) : Bool :=
  satisfies type name interfacename plugin || escapes type name interfacename plugin

/-- The plugin after one loop iteration entered with a null `pointer`. -/
def visit (type : InterfaceType) (name interfacename : String) (plugin : RavePlugin) :
    RavePlugin :=
  if plugin.HasInterface type interfacename then
    match plugin.OpenRAVECreateInterface type name with
    | .threw => plugin.AddBadInterface type name
    | .returned (some inst) =>
      if inst.interfaceType ≠ type then plugin.AddBadInterface type interfacename else plugin
    | .returned none => plugin
    | .threwOther => plugin
  else plugin

/-- The calls of one loop iteration entered with a null `pointer`. -/
def visitCalls (type : InterfaceType) (name interfacename : String) (idx : Nat)
    (plugin : RavePlugin) : List Call :=
  if plugin.HasInterface type interfacename then
    [Call.HasInterface idx type interfacename, Call.OpenRAVECreateInterface idx type name] ++
      (match plugin.OpenRAVECreateInterface type name with
       | .threw => [Call.AddBadInterface idx type name]
       | .returned (some inst) =>
         if inst.interfaceType ≠ type then [Call.AddBadInterface idx type interfacename] else []
       | .returned none => []
       | .threwOther => [])
  else [Call.HasInterface idx type interfacename]

/-- The calls of consecutive loop iterations over `plugins`, none of which
leaves the loop. -/
def visitAllCalls (type : InterfaceType) (name interfacename : String) :
    Nat → List RavePlugin → List Call
  | _, [] => []
  | idx, plugin :: rest =>
    visitCalls type name interfacename idx plugin ++
      visitAllCalls type name interfacename (idx + 1) rest

/-! ## Example plugins and registries -/

/-- An example plugin that provides the single interface `(type, iname)` and
whose factory always has the given outcome. -/
def examplePlugin (path display : String) (type : InterfaceType) (iname : String)
    (outcome : CreateOutcome) : RavePlugin :=
  { pluginPath := path, pluginName := display,
    interfaces := fun t => if t = type then [iname] else [],
    badInterfaces := [],
    OpenRAVECreateInterface := fun _ _ => outcome,
    isVirtual := false }

/-- A robot instance as a factory hands it out. -/
def exampleRobot : InterfaceBase :=
  { interfaceType := PT_Robot, isRobot := true, __strpluginname := "", __strxmlid := "" }

/-- An instance that declares the Robot type but whose `IsRobot()` is false. -/
def exampleFakeRobot : InterfaceBase :=
  { interfaceType := PT_Robot, isRobot := false, __strpluginname := "", __strxmlid := "" }

/-- A body instance as a factory hands it out. -/
def exampleBody : InterfaceBase :=
  { interfaceType := PT_KinBody, isRobot := false, __strpluginname := "", __strxmlid := "" }

/-- Provides `(Robot, "Foo")`; the factory throws. -/
def pluginThrows : RavePlugin :=
  examplePlugin "/plugins/libthrows.so" "throws" PT_Robot "Foo" .threw

/-- Provides `(Robot, "Foo")`; the factory returns a robot. -/
def pluginGood : RavePlugin :=
  examplePlugin "/plugins/libgood.so" "good" PT_Robot "Foo" (.returned (some exampleRobot))

/-- Provides `(Robot, "Foo")` as well; registered later. -/
def pluginLate : RavePlugin :=
  examplePlugin "/plugins/liblate.so" "late" PT_Robot "Foo" (.returned (some exampleRobot))

/-- Provides `(Robot, "Foo")`; the instance does not report `IsRobot()`. -/
def pluginFakeRobot : RavePlugin :=
  examplePlugin "/plugins/libfake.so" "fake" PT_Robot "Foo" (.returned (some exampleFakeRobot))

/-- Provides `(KinBody, "Box")` only. -/
def pluginOther : RavePlugin :=
  examplePlugin "/plugins/libbox.so" "box" PT_KinBody "Box" (.returned (some exampleBody))

/-- Provides `(Robot, "X")`; the factory returns a robot. -/
def pluginX : RavePlugin :=
  examplePlugin "/plugins/libx.so" "x" PT_Robot "X" (.returned (some exampleRobot))

/-- An empty registry. -/
def emptyDatabase : DynamicRaveDatabase :=
  { _vPlugins := [], _mapLibraryHandles := [], _vPluginDirs := [] }

/-- A registry whose only plugin provides `(Robot, "X")`. -/
def databaseX : DynamicRaveDatabase :=
  { _vPlugins := [pluginX], _mapLibraryHandles := [], _vPluginDirs := [] }

/-- A collision-checker plugin as its `CreatePlugin` hands it out. -/
def pluginFcl : RavePlugin :=
  examplePlugin "" "fclrave" PT_CollisionChecker "fcl_" (.returned none)

/-- An example loader: one file is a plugin, one lacks the `CreatePlugin`
symbol, one has a throwing factory, one a factory returning null; every
other path fails to load. -/
def exampleLoader : Loader := fun path =>
  if path = "/plugins/libfclrave.so" then some ⟨some (.returned (some pluginFcl))⟩
  else if path = "/plugins/libnosymbol.so" then some ⟨none⟩
  else if path = "/plugins/libthrowing.so" then some ⟨some .threw⟩
  else if path = "/plugins/libnullfactory.so" then some ⟨some (.returned none)⟩
  else none

/-- A registry holding the descriptor loaded from `/plugins/libfclrave.so`. -/
def databaseFcl : DynamicRaveDatabase :=
  { _vPlugins := [{ pluginFcl with pluginPath := "/plugins/libfclrave.so" }],
    _mapLibraryHandles := [("/plugins/libfclrave.so", ⟨some (.returned (some pluginFcl))⟩)],
    _vPluginDirs := ["/plugins"] }

/-- Provides `(Robot, "Foo")`; both lifecycle hooks throw. -/
def pluginHookThrows : RavePlugin :=
  { pluginGood with
    pluginPath := "/plugins/libhook.so", pluginName := "hook",
    OnRaveInitialized := .threw, OnRavePreDestroy := .threw }

/-- Provides `(KinBody, "Foo")`; the instance is declared as a Robot. -/
def pluginRobotAsBody : RavePlugin :=
  examplePlugin "/plugins/librobot.so" "robot" PT_KinBody "Foo" (.returned (some exampleRobot))

/-- A plugin directory with one plugin file at the top and a subdirectory
holding another candidate and a text file. -/
def exampleTree : FsNode :=
  .dir "/plugins"
    [.file "/plugins/libfclrave.so" ".so" false,
     .dir "/plugins/sub"
       [.file "/plugins/sub/libnosymbol.so" ".so" false,
        .file "/plugins/sub/readme.txt" ".txt" false]]

/-- An example host whose file system holds `exampleTree` at `/plugins`. -/
def exampleHost : Host :=
  { loader := exampleLoader,
    lookup := fun path => if path = "/plugins" then exampleTree else .other path,
    PLUGIN_EXT := ".so",
    OPENRAVE_PLUGINS := some ["/plugins", "/plugins"],
    OPENRAVE_PLUGINS_INSTALL_DIR := "/plugins",
    absolute := fun path => path,
    recurse := false }

/-- Reference split of a name in the spec's words: the lookup key is the
prefix of the name before its first space. -/
def lookupKey (name : String) : String := String.mk (name.data.takeWhile (fun c => c ≠ ' '))

/-- Reference split of a name in the spec's words: the trailing parameter
string is the text after the first space. -/
def trailingParameters (name : String) : String :=
  String.mk ((name.data.dropWhile (fun c => c ≠ ' ')).drop 1)

mutual
/-- The paths of the non-empty regular files at or below a node whose
extension is `PLUGIN_EXT`, in iteration order. -/
def FsNode.pluginFiles (PLUGIN_EXT : String) : FsNode → List String
  | .other _ => []
  | .file path extension isEmpty =>
    if isEmpty then [] else if extension ≠ "" ∧ extension = PLUGIN_EXT then [path] else []
  | .dir _ entries => FsNode.pluginFilesOfEntries PLUGIN_EXT entries
/-- The same for a list of entries. -/
def FsNode.pluginFilesOfEntries (PLUGIN_EXT : String) : List FsNode → List String
  | [] => []
  | entry :: rest =>
    FsNode.pluginFiles PLUGIN_EXT entry ++ FsNode.pluginFilesOfEntries PLUGIN_EXT rest
end

/-- Provides `(Robot, "Foo")`; the factory throws something that is not a
`std::exception`. -/
def pluginThrowsOther : RavePlugin :=
  examplePlugin "/plugins/libother.so" "other" PT_Robot "Foo" .threwOther

/-- The example host with one more file: a library at `__internal__`, the
path of every virtual plugin, whose factory throws something that is not a
`std::exception`. -/
def hostInternalThrows : Host :=
  { exampleHost with
    loader := fun path =>
      if path = "__internal__" then some ⟨some .threwOther⟩ else exampleLoader path }

/-! ## Lemmas on the string helpers -/

theorem find_first_of_none_of_not_mem (s : List Char) (c : Char) (h : c ∉ s) :
    find_first_of s c = none := by
  induction s with
  | nil => rfl
  | cons x xs ih =>
    have hx : x ≠ c := fun e => h (by simp [e])
    have hxs : c ∉ xs := fun e => h (by simp [e])
    simp [find_first_of, hx, ih hxs]

theorem position_eq_zero_iff (name : String) :
    position name = 0 ↔ name.data = [] ∨ name.data.head? = some ' ' := by
  obtain ⟨data⟩ := name
  cases data with
  | nil => simp [position, find_first_of]
  | cons x xs =>
    by_cases hx : x = ' '
    · simp [position, find_first_of, hx]
    · simp only [position, find_first_of, hx, if_false]
      cases hf : find_first_of xs ' ' <;> simp [hx]

theorem substr0_position_of_no_space (name : String) (h : ' ' ∉ name.data) :
    substr0 name (position name) = name := by
  obtain ⟨data⟩ := name
  simp only [position, substr0, find_first_of_none_of_not_mem data ' ' h, List.take_length]

theorem createDefault_of_nonempty (type : InterfaceType) (name : String) (h : name.data ≠ []) :
    createDefault type name = (none, name) := by
  simp [createDefault, h]

/-! ## Lemmas on the plugin scan -/

section Scan

variable (type : InterfaceType) (name interfacename : String)

theorem has_of_stops (p : RavePlugin) (h : stops type name interfacename p = true) :
    p.HasInterface type interfacename = true := by
  simp only [stops, satisfies, escapes, Bool.or_eq_true, Bool.and_eq_true] at h
  rcases h with h | h <;> exact h.1

theorem scan_cons_satisfied (k : Nat) (p : RavePlugin) (rest : List RavePlugin)
    (h : satisfies type name interfacename p = true) :
    scanPlugins type name interfacename none k (p :: rest) =
      ⟨made type name p, p :: rest,
        [Call.HasInterface k type interfacename, Call.OpenRAVECreateInterface k type name],
        false⟩ := by
  simp only [satisfies, Bool.and_eq_true] at h
  obtain ⟨hhas, hmade⟩ := h
  unfold made at hmade ⊢
  cases hc : p.OpenRAVECreateInterface type name with
  | threw => simp [hc] at hmade
  | threwOther => simp [hc] at hmade
  | returned ptr =>
    cases ptr with
    | none => simp [hc] at hmade
    | some inst =>
      by_cases ht : inst.interfaceType = type
      · simp [scanPlugins, hhas, hc, ht]
      · simp [hc, ht] at hmade

theorem scan_cons_escapes (k : Nat) (p : RavePlugin) (rest : List RavePlugin)
    (h : escapes type name interfacename p = true) :
    scanPlugins type name interfacename none k (p :: rest) =
      ⟨none, p :: rest,
        [Call.HasInterface k type interfacename, Call.OpenRAVECreateInterface k type name],
        true⟩ := by
  simp only [escapes, Bool.and_eq_true, decide_eq_true_eq] at h
  obtain ⟨hhas, hc⟩ := h
  simp [scanPlugins, hhas, hc]

theorem made_of_escapes (p : RavePlugin) (h : escapes type name interfacename p = true) :
    made type name p = none := by
  simp only [escapes, Bool.and_eq_true, decide_eq_true_eq] at h
  simp [made, h.2]

/-- The scan ends at a plugin that satisfies the request or whose factory
throws an uncaught exception; the plugin and the later ones are left as they
were and no later plugin is asked. -/
theorem scan_cons_stops (k : Nat) (p : RavePlugin) (rest : List RavePlugin)
    (h : stops type name interfacename p = true) :
    scanPlugins type name interfacename none k (p :: rest) =
      ⟨made type name p, p :: rest,
        [Call.HasInterface k type interfacename, Call.OpenRAVECreateInterface k type name],
        escapes type name interfacename p⟩ := by
  by_cases he : escapes type name interfacename p = true
  · rw [scan_cons_escapes type name interfacename k p rest he,
      made_of_escapes type name interfacename p he, he]
  · have he' : escapes type name interfacename p = false := by simpa using he
    have hs : satisfies type name interfacename p = true := by
      simpa [stops, he'] using h
    rw [scan_cons_satisfied type name interfacename k p rest hs, he']

theorem scan_cons_unsatisfied (k : Nat) (p : RavePlugin) (rest : List RavePlugin)
    (h : stops type name interfacename p = false) :
    scanPlugins type name interfacename none k (p :: rest) =
      ⟨(scanPlugins type name interfacename none (k + 1) rest).pointer,
        visit type name interfacename p ::
          (scanPlugins type name interfacename none (k + 1) rest).plugins,
        visitCalls type name interfacename k p ++
          (scanPlugins type name interfacename none (k + 1) rest).calls,
        (scanPlugins type name interfacename none (k + 1) rest).escaped⟩ := by
  simp only [stops, Bool.or_eq_false_iff] at h
  obtain ⟨hs, he⟩ := h
  by_cases hhas : p.HasInterface type interfacename = true
  · cases hc : p.OpenRAVECreateInterface type name with
    | threw => simp [scanPlugins, visit, visitCalls, hhas, hc]
    | threwOther => simp [escapes, hhas, hc] at he
    | returned ptr =>
      cases ptr with
      | none => simp [scanPlugins, visit, visitCalls, hhas, hc]
      | some inst =>
        by_cases ht : inst.interfaceType = type
        · simp [satisfies, made, hhas, hc, ht] at hs
        · simp [scanPlugins, visit, visitCalls, hhas, hc, ht]
  · simp [scanPlugins, visit, visitCalls, hhas]

/-- Plugins at which the scan does not end are passed over: the scan of
`pre ++ rest` is the scan of `rest` after a visit to each plugin of `pre`. -/
theorem scan_append (pre rest : List RavePlugin) (k : Nat)
    (h : ∀ q ∈ pre, stops type name interfacename q = false) :
    scanPlugins type name interfacename none k (pre ++ rest) =
      ⟨(scanPlugins type name interfacename none (k + pre.length) rest).pointer,
        pre.map (visit type name interfacename) ++
          (scanPlugins type name interfacename none (k + pre.length) rest).plugins,
        visitAllCalls type name interfacename k pre ++
          (scanPlugins type name interfacename none (k + pre.length) rest).calls,
        (scanPlugins type name interfacename none (k + pre.length) rest).escaped⟩ := by
  induction pre generalizing k with
  | nil => simp [visitAllCalls]
  | cons q qs ih =>
    have hq : stops type name interfacename q = false := h q (by simp)
    have hqs : ∀ r ∈ qs, stops type name interfacename r = false :=
      fun r hr => h r (by simp [hr])
    rw [List.cons_append, scan_cons_unsatisfied type name interfacename k q _ hq, ih (k + 1) hqs]
    simp [visitAllCalls, Nat.add_assoc, Nat.add_comm 1]

theorem visit_of_stops (p : RavePlugin) (h : stops type name interfacename p = true) :
    visit type name interfacename p = p := by
  have hhas := has_of_stops type name interfacename p h
  simp only [stops, satisfies, escapes, Bool.or_eq_true, Bool.and_eq_true,
    decide_eq_true_eq] at h
  cases hc : p.OpenRAVECreateInterface type name with
  | threw => simp [made, hc] at h
  | threwOther => simp [visit, hhas, hc]
  | returned ptr =>
    cases ptr with
    | none => simp [made, hc] at h
    | some inst =>
      by_cases ht : inst.interfaceType = type
      · simp [visit, hhas, hc, ht]
      · simp [made, hc, ht] at h

theorem create_mem_visitCalls (k j : Nat) (t : InterfaceType) (n : String) (p : RavePlugin) :
    Call.OpenRAVECreateInterface j t n ∈ visitCalls type name interfacename k p ↔
      j = k ∧ t = type ∧ n = name ∧ p.HasInterface type interfacename = true := by
  by_cases hhas : p.HasInterface type interfacename = true
  · cases hc : p.OpenRAVECreateInterface type name with
    | threw => simp [visitCalls, hhas, hc]
    | threwOther => simp [visitCalls, hhas, hc]
    | returned ptr =>
      cases ptr with
      | none => simp [visitCalls, hhas, hc]
      | some inst =>
        by_cases ht : inst.interfaceType = type <;> simp [visitCalls, hhas, hc, ht]
  · simp [visitCalls, hhas]

theorem count_create_visitCalls (k : Nat) (p : RavePlugin)
    (hhas : p.HasInterface type interfacename = true) :
    (visitCalls type name interfacename k p).count
      (Call.OpenRAVECreateInterface k type name) = 1 := by
  cases hc : p.OpenRAVECreateInterface type name with
  | threw => simp [visitCalls, hhas, hc, List.count_cons]
  | threwOther => simp [visitCalls, hhas, hc, List.count_cons]
  | returned ptr =>
    cases ptr with
    | none => simp [visitCalls, hhas, hc, List.count_cons]
    | some inst =>
      by_cases ht : inst.interfaceType = type <;>
        simp [visitCalls, hhas, hc, ht, List.count_cons]

theorem dlopen_not_mem_visitCalls (k : Nat) (path : String) (p : RavePlugin) :
    Call.dlopen path ∉ visitCalls type name interfacename k p := by
  by_cases hhas : p.HasInterface type interfacename = true
  · cases hc : p.OpenRAVECreateInterface type name with
    | threw => simp [visitCalls, hhas, hc]
    | threwOther => simp [visitCalls, hhas, hc]
    | returned ptr =>
      cases ptr with
      | none => simp [visitCalls, hhas, hc]
      | some inst =>
        by_cases ht : inst.interfaceType = type <;> simp [visitCalls, hhas, hc, ht]
  · simp [visitCalls, hhas]

theorem create_mem_visitAllCalls (ps : List RavePlugin) (k j : Nat) (t : InterfaceType)
    (n : String)
    (h : Call.OpenRAVECreateInterface j t n ∈ visitAllCalls type name interfacename k ps) :
    k ≤ j ∧ j < k + ps.length := by
  induction ps generalizing k with
  | nil => simp [visitAllCalls] at h
  | cons p rest ih =>
    simp only [visitAllCalls, List.mem_append] at h
    rcases h with h | h
    · have := (create_mem_visitCalls type name interfacename k j t n p).1 h
      simp only [List.length_cons]; omega
    · have := ih (k + 1) h
      simp only [List.length_cons]; omega

/-- A factory call in the log of a scan belongs to a plugin of the list that
had the interface, and that plugin is afterwards in its visited state. -/
theorem create_mem_scan (ps : List RavePlugin) (k j : Nat) (t : InterfaceType) (n : String)
    (h : Call.OpenRAVECreateInterface j t n ∈
      (scanPlugins type name interfacename none k ps).calls) :
    t = type ∧ n = name ∧ ∃ i q, j = k + i ∧ ps[i]? = some q ∧
      q.HasInterface type interfacename = true ∧
      (scanPlugins type name interfacename none k ps).plugins[i]? =
        some (visit type name interfacename q) := by
  induction ps generalizing k with
  | nil => simp [scanPlugins] at h
  | cons p rest ih =>
    by_cases hs : stops type name interfacename p = true
    · rw [scan_cons_stops type name interfacename k p rest hs] at h ⊢
      simp only [List.mem_cons, List.mem_singleton, Call.OpenRAVECreateInterface.injEq,
        reduceCtorEq, false_or, List.not_mem_nil, or_false] at h
      obtain ⟨hj, ht, hn⟩ := h
      refine ⟨ht, hn, 0, p, by omega, by simp, has_of_stops type name interfacename p hs, ?_⟩
      simp [visit_of_stops type name interfacename p hs]
    · have hs' : stops type name interfacename p = false := by simpa using hs
      rw [scan_cons_unsatisfied type name interfacename k p rest hs'] at h ⊢
      simp only [List.mem_append] at h
      rcases h with h | h
      · obtain ⟨hj, ht, hn, hhas⟩ := (create_mem_visitCalls type name interfacename k j t n p).1 h
        exact ⟨ht, hn, 0, p, by omega, by simp, hhas, by simp⟩
      · obtain ⟨ht, hn, i, q, hj, hq, hhas, hpl⟩ := ih (k + 1) h
        exact ⟨ht, hn, i + 1, q, by omega, by simpa using hq, hhas, by simpa using hpl⟩

theorem dlopen_not_mem_scan (ps : List RavePlugin) (k : Nat) (path : String) :
    Call.dlopen path ∉ (scanPlugins type name interfacename none k ps).calls := by
  induction ps generalizing k with
  | nil => simp [scanPlugins]
  | cons p rest ih =>
    by_cases hs : stops type name interfacename p = true
    · rw [scan_cons_stops type name interfacename k p rest hs]; simp
    · have hs' : stops type name interfacename p = false := by simpa using hs
      rw [scan_cons_unsatisfied type name interfacename k p rest hs']
      simp only [List.mem_append, not_or]
      exact ⟨dlopen_not_mem_visitCalls type name interfacename k path p, ih (k + 1)⟩

/-- No factory is called twice in one scan. -/
theorem count_create_scan_le (ps : List RavePlugin) (k j : Nat) (t : InterfaceType)
    (n : String) :
    (scanPlugins type name interfacename none k ps).calls.count
      (Call.OpenRAVECreateInterface j t n) ≤ 1 := by
  induction ps generalizing k with
  | nil => simp [scanPlugins]
  | cons p rest ih =>
    by_cases hs : stops type name interfacename p = true
    · rw [scan_cons_stops type name interfacename k p rest hs]
      simp only [List.count_cons, List.count_nil, reduceCtorEq, beq_iff_eq, if_false]
      split <;> omega
    · have hs' : stops type name interfacename p = false := by simpa using hs
      rw [scan_cons_unsatisfied type name interfacename k p rest hs']
      rw [List.count_append]
      by_cases hmem : Call.OpenRAVECreateInterface j t n ∈
          visitCalls type name interfacename k p
      · obtain ⟨hj, ht, hn, hhas⟩ :=
          (create_mem_visitCalls type name interfacename k j t n p).1 hmem
        subst hj ht hn
        have hrest : (scanPlugins t n interfacename none (j + 1) rest).calls.count
            (Call.OpenRAVECreateInterface j t n) = 0 := by
          rw [List.count_eq_zero]
          intro hin
          obtain ⟨_, _, i, _, hi, _⟩ := create_mem_scan t n interfacename rest (j + 1) j t n hin
          omega
        rw [hrest, count_create_visitCalls t n interfacename j p hhas]
      · rw [List.count_eq_zero.2 hmem]
        have := ih (k + 1)
        omega

theorem create_mem_visitAllCalls_of_has (ps : List RavePlugin) (k i : Nat) (q : RavePlugin)
    (hq : ps[i]? = some q) (hhas : q.HasInterface type interfacename = true) :
    Call.OpenRAVECreateInterface (k + i) type name ∈
      visitAllCalls type name interfacename k ps := by
  induction ps generalizing k i with
  | nil => simp at hq
  | cons p rest ih =>
    simp only [visitAllCalls, List.mem_append]
    cases i with
    | zero =>
      simp only [List.getElem?_cons_zero, Option.some.injEq] at hq
      subst hq
      left
      exact (create_mem_visitCalls type name interfacename k (k + 0) type name p).2
        ⟨rfl, rfl, rfl, hhas⟩
    | succ i =>
      right
      have := ih (k + 1) i (by simpa using hq)
      have e : k + (i + 1) = k + 1 + i := by omega
      rw [e]; exact this

theorem hasInterface_mem_scan_cons (k : Nat) (p : RavePlugin) (rest : List RavePlugin) :
    Call.HasInterface k type interfacename ∈
      (scanPlugins type name interfacename none k (p :: rest)).calls := by
  by_cases hs : stops type name interfacename p = true
  · rw [scan_cons_stops type name interfacename k p rest hs]; simp
  · have hs' : stops type name interfacename p = false := by simpa using hs
    rw [scan_cons_unsatisfied type name interfacename k p rest hs']
    apply List.mem_append_left
    by_cases hhas : p.HasInterface type interfacename = true <;> simp [visitCalls, hhas]

/-- A plugin that has the interface when the scan reaches it has its factory
called exactly once. -/
theorem count_create_scan_cons_of_has (k : Nat) (p : RavePlugin) (rest : List RavePlugin)
    (hhas : p.HasInterface type interfacename = true) :
    (scanPlugins type name interfacename none k (p :: rest)).calls.count
      (Call.OpenRAVECreateInterface k type name) = 1 := by
  by_cases hs : stops type name interfacename p = true
  · rw [scan_cons_stops type name interfacename k p rest hs]
    simp [List.count_cons]
  · have hs' : stops type name interfacename p = false := by simpa using hs
    rw [scan_cons_unsatisfied type name interfacename k p rest hs', List.count_append,
      count_create_visitCalls type name interfacename k p hhas]
    have hrest : (scanPlugins type name interfacename none (k + 1) rest).calls.count
        (Call.OpenRAVECreateInterface k type name) = 0 := by
      rw [List.count_eq_zero]
      intro hin
      obtain ⟨_, _, i, _, hi, _⟩ :=
        create_mem_scan type name interfacename rest (k + 1) k type name hin
      omega
    rw [hrest]

/-- An exception that leaves the scan leaves it with a null pointer. -/
theorem scan_pointer_of_escaped (ps : List RavePlugin) (k : Nat)
    (h : (scanPlugins type name interfacename none k ps).escaped = true) :
    (scanPlugins type name interfacename none k ps).pointer = none := by
  induction ps generalizing k with
  | nil => simp [scanPlugins] at h
  | cons p rest ih =>
    by_cases hs : stops type name interfacename p = true
    · rw [scan_cons_stops type name interfacename k p rest hs] at h ⊢
      exact made_of_escapes type name interfacename p h
    · have hs' : stops type name interfacename p = false := by simpa using hs
      rw [scan_cons_unsatisfied type name interfacename k p rest hs'] at h ⊢
      exact ih (k + 1) h

end Scan

/-- On a well-formed name `Create` is the plugin scan followed by the two
checks on the pointer. -/
theorem Create_eq_scan (ps : List RavePlugin) (type : InterfaceType) (name : String)
    (hne : name.data ≠ []) (hsp : name.data.head? ≠ some ' ') :
    Create ps type name =
      ⟨finalCheck type (robotCheck type
          (scanPlugins type name (substr0 name (position name)) none 0 ps).pointer),
        (scanPlugins type name (substr0 name (position name)) none 0 ps).plugins,
        (scanPlugins type name (substr0 name (position name)) none 0 ps).calls,
        (scanPlugins type name (substr0 name (position name)) none 0 ps).escaped⟩ := by
  have hpos : position name ≠ 0 := by
    rw [Ne, position_eq_zero_iff]; simp [hne, hsp]
  by_cases he : (scanPlugins type name (substr0 name (position name)) none 0 ps).escaped = true
  · have hp := scan_pointer_of_escaped type name _ ps 0 he
    simp [Create, createDefault_of_nonempty type name hne, hpos, he, hp, robotCheck, finalCheck]
  · simp [Create, createDefault_of_nonempty type name hne, hpos, he]

/-! ## Lemmas on the de-duplication loop -/

/-- The inner loop stops below `i` exactly when an earlier entry equals
entry `i`. -/
theorem dedupInner_lt_iff (v : List String) (i : Nat) :
    ∀ (fuel j : Nat), j + fuel = i →
      (dedupInner v i fuel j < i ↔ ∃ j', j ≤ j' ∧ j' < i ∧ v[i]? = v[j']?) := by
  intro fuel
  induction fuel with
  | zero =>
    intro j hj
    simp only [dedupInner]
    constructor
    · intro h; omega
    · rintro ⟨j', h1, h2, _⟩; omega
  | succ fuel ih =>
    intro j hj
    have hlt : j < i := by omega
    simp only [dedupInner, hlt, if_true]
    by_cases heq : v[i]? = v[j]?
    · simp only [heq, if_true]
      exact ⟨fun _ => ⟨j, Nat.le_refl _, hlt, rfl⟩, fun _ => hlt⟩
    · simp only [heq, if_false]
      rw [ih (j + 1) (by omega)]
      constructor
      · rintro ⟨j', h1, h2, h3⟩
        exact ⟨j', by omega, h2, h3⟩
      · rintro ⟨j', h1, h2, h3⟩
        have hne : j' ≠ j := fun e => heq (e ▸ h3)
        exact ⟨j', by omega, h2, h3⟩

/-- The inner loop reads only entries up to `i`. -/
theorem dedupInner_append (w t : List String) (i : Nat) (hi : i < w.length) :
    ∀ (fuel j : Nat), dedupInner (w ++ t) i fuel j = dedupInner w i fuel j := by
  intro fuel
  induction fuel with
  | zero => intro j; rfl
  | succ fuel ih =>
    intro j
    simp only [dedupInner]
    by_cases hlt : j < i
    · simp only [hlt, if_true, ih (j + 1)]
      rw [List.getElem?_append_left hi, List.getElem?_append_left (by omega)]
    · simp only [hlt, if_false]

/-- The outer loop entered at `i` leaves everything after entry `i` alone. -/
theorem dedupOuter_append (i : Nat) :
    ∀ (w t : List String), i < w.length → dedupOuter i (w ++ t) = dedupOuter i w ++ t := by
  induction i with
  | zero => intro w t _; rfl
  | succ i ih =>
    intro w t hi
    simp only [dedupOuter, dedupInner_append w t (i + 1) hi]
    by_cases hj : dedupInner w (i + 1) (i + 1) 0 < i + 1
    · simp only [hj, if_true]
      rw [List.eraseIdx_append_of_lt_length hi]
      apply ih
      rw [List.length_eraseIdx_of_lt hi]
      omega
    · simp only [hj, if_false]
      exact ih w t (by omega)

theorem keepFirstOccurrence_concat (w : List String) (x : String) :
    keepFirstOccurrence (w ++ [x]) =
      keepFirstOccurrence w ++ (if x ∈ w then [] else [x]) := by
  induction w with
  | nil => simp [keepFirstOccurrence]
  | cons y w ih =>
    simp only [List.cons_append, keepFirstOccurrence, List.mem_cons, List.append_eq]
    rw [ih, List.filter_append]
    by_cases hxy : x = y
    · subst hxy
      by_cases hxw : x ∈ w <;> simp [hxw]
    · by_cases hxw : x ∈ w <;> simp [hxw, hxy]

theorem mem_keepFirstOccurrence (v : List String) (s : String) :
    s ∈ keepFirstOccurrence v ↔ s ∈ v := by
  induction v with
  | nil => simp [keepFirstOccurrence]
  | cons x xs ih =>
    simp only [keepFirstOccurrence, List.mem_cons, List.mem_filter, ih]
    by_cases h : s = x <;> simp [h]

theorem nodup_keepFirstOccurrence (v : List String) : (keepFirstOccurrence v).Nodup := by
  induction v with
  | nil => simp [keepFirstOccurrence]
  | cons x xs ih =>
    simp only [keepFirstOccurrence, List.nodup_cons]
    exact ⟨by simp [List.mem_filter], ih.filter _⟩

theorem keepFirstOccurrence_sublist (v : List String) : (keepFirstOccurrence v).Sublist v := by
  induction v with
  | nil => simp [keepFirstOccurrence]
  | cons x xs ih =>
    simp only [keepFirstOccurrence]
    exact ((List.filter_sublist _).trans ih).cons₂ x

/-- The loop of `Init` computes the keep-first de-duplication. -/
theorem dedupPluginDirs_eq (v : List String) : dedupPluginDirs v = keepFirstOccurrence v := by
  induction v using List.reverseRecOn with
  | nil => rfl
  | append_singleton w x ih =>
    rw [keepFirstOccurrence_concat]
    cases hw : w.length with
    | zero =>
      have : w = [] := List.length_eq_zero.1 hw
      subst this
      simp [dedupPluginDirs, dedupOuter, keepFirstOccurrence]
    | succ n =>
      have hlen : (w ++ [x]).length - 1 = n + 1 := by simp [hw]
      have hih : dedupOuter n w = keepFirstOccurrence w := by
        rw [← ih]; simp [dedupPluginDirs, hw]
      have hinner : dedupInner (w ++ [x]) (n + 1) (n + 1) 0 < n + 1 ↔ x ∈ w := by
        rw [dedupInner_lt_iff (w ++ [x]) (n + 1) (n + 1) 0 (by omega)]
        have hx : (w ++ [x])[n + 1]? = some x := by
          rw [← hw]; exact List.getElem?_concat_length w x
        constructor
        · rintro ⟨j', _, h2, h3⟩
          rw [hx, List.getElem?_append_left (by omega)] at h3
          exact List.mem_iff_getElem?.2 ⟨j', h3.symm⟩
        · intro hmem
          obtain ⟨j', hj'⟩ := List.mem_iff_getElem?.1 hmem
          have hlt : j' < w.length := by
            by_contra hge
            rw [List.getElem?_eq_none (by omega)] at hj'
            exact Option.noConfusion hj'
          refine ⟨j', Nat.zero_le _, by omega, ?_⟩
          rw [hx, List.getElem?_append_left hlt, hj']
      simp only [dedupPluginDirs, hlen, dedupOuter]
      by_cases hmem : x ∈ w
      · simp only [hinner.2 hmem, if_true, hmem]
        have herase : (w ++ [x]).eraseIdx (n + 1) = w := by
          rw [← hw, List.eraseIdx_append_of_length_le (Nat.le_refl _)]
          simp
        rw [herase, hih, List.append_nil]
      · have hnot : ¬ dedupInner (w ++ [x]) (n + 1) (n + 1) 0 < n + 1 :=
          fun h => hmem (hinner.1 h)
        simp only [hnot, if_false, hmem]
        rw [dedupOuter_append n w [x] (by omega), hih]

/-! ## Lemmas on loading -/

/-- Every `_LoadPlugin` opens the library at its argument, once. -/
theorem _LoadPlugin_calls (loader : Loader) (db : DynamicRaveDatabase) (strpath : String) :
    (_LoadPlugin loader db strpath).calls = [Call.dlopen strpath] := by
  unfold _LoadPlugin
  cases loader strpath with
  | none => rfl
  | some dylib =>
    cases hsym : dylib.CreatePlugin with
    | none => simp [hsym]
    | some fn =>
      cases fn with
      | threw => simp [hsym]
      | threwOther => simp [hsym]
      | returned p => cases p <;> simp [hsym]

/-- The loader `_LoadPlugin` only appends to the plugin list. -/
theorem _LoadPlugin_appends (loader : Loader) (db : DynamicRaveDatabase) (strpath : String) :
    db._vPlugins <+: (_LoadPlugin loader db strpath).db._vPlugins := by
  unfold _LoadPlugin
  cases loader strpath with
  | none => exact List.prefix_refl _
  | some dylib =>
    cases hsym : dylib.CreatePlugin with
    | none => simp [hsym]
    | some fn =>
      cases fn with
      | threw => simp [hsym]
      | threwOther => simp [hsym]
      | returned p => cases p <;> simp [hsym]

theorem _LoadPlugin_escaped (loader : Loader) (db : DynamicRaveDatabase) (strpath : String) :
    (_LoadPlugin loader db strpath).escaped = loadEscapes loader strpath := by
  unfold _LoadPlugin loadEscapes
  cases loader strpath with
  | none => rfl
  | some dylib =>
    cases hsym : dylib.CreatePlugin with
    | none => simp [hsym]
    | some fn =>
      cases fn with
      | threw => simp [hsym]
      | threwOther => simp [hsym]
      | returned p => cases p <;> simp [hsym]

theorem reloadLoop_eq_loadCandidates (loader : Loader) (snapshot : List RavePlugin) :
    ∀ st : WalkState, reloadLoop loader snapshot st =
      loadCandidates loader (snapshot.map (fun plugin => plugin.pluginPath)) st := by
  induction snapshot with
  | nil => intro st; rfl
  | cons plugin rest ih =>
    intro st
    simp only [reloadLoop, List.map_cons, loadCandidates, ih]

theorem attemptedPaths_isPrefix (loader : Loader) (paths : List String) :
    attemptedPaths loader paths <+: paths := by
  induction paths with
  | nil => exact List.prefix_refl _
  | cons path rest ih =>
    simp only [attemptedPaths]
    split
    · exact ⟨rest, rfl⟩
    · exact (List.prefix_cons_inj path).2 ih

theorem attemptedPaths_of_no_escape (loader : Loader) (paths : List String)
    (h : ∀ path ∈ paths, loadEscapes loader path = false) :
    attemptedPaths loader paths = paths := by
  induction paths with
  | nil => rfl
  | cons path rest ih =>
    simp only [attemptedPaths, h path (by simp), Bool.false_eq_true, if_false]
    rw [ih (fun q hq => h q (by simp [hq]))]

/-- The log and the plugin list after loading a list of candidates. -/
theorem loadCandidates_spec (loader : Loader) (paths : List String) :
    ∀ st : WalkState,
      (loadCandidates loader paths st).calls =
          st.calls ++ (attemptedPaths loader paths).map Call.dlopen ∧
        st.db._vPlugins <+: (loadCandidates loader paths st).db._vPlugins ∧
        (st.escaped = false →
          (loadCandidates loader paths st).escaped = paths.any (loadEscapes loader)) := by
  induction paths with
  | nil => intro st; simp [loadCandidates, attemptedPaths]
  | cons path rest ih =>
    intro st
    have hesc := _LoadPlugin_escaped loader st.db path
    have hcalls := _LoadPlugin_calls loader st.db path
    have happ := _LoadPlugin_appends loader st.db path
    by_cases he : loadEscapes loader path = true
    · simp only [loadCandidates, attemptedPaths, hesc, he, if_true, hcalls, List.map_cons,
        List.map_nil, List.any_cons, Bool.true_or]
      exact ⟨trivial, happ, fun _ => trivial⟩
    · have he' : loadEscapes loader path = false := by simpa using he
      obtain ⟨h1, h2, h3⟩ := ih ⟨(_LoadPlugin loader st.db path).db,
        st.calls ++ (_LoadPlugin loader st.db path).calls, false⟩
      simp only [loadCandidates, attemptedPaths, hesc, he', Bool.false_eq_true, if_false,
        List.map_cons, List.any_cons, Bool.false_or]
      refine ⟨?_, happ.trans h2, fun _ => h3 rfl⟩
      rw [h1, hcalls]
      simp

theorem loadCandidates_append (loader : Loader) (a b : List String) :
    ∀ st : WalkState, st.escaped = false →
      loadCandidates loader (a ++ b) st =
        if (loadCandidates loader a st).escaped then loadCandidates loader a st
        else loadCandidates loader b (loadCandidates loader a st) := by
  induction a with
  | nil => intro st hst; simp [loadCandidates, hst]
  | cons path rest ih =>
    intro st _
    simp only [List.cons_append, loadCandidates]
    split
    · simp
    · exact ih _ rfl

/-- The rotate-and-pop of `LoadPlugin` erases the element at the iterator. -/
theorem rotateAndPop_eq_eraseIdx (v : List RavePlugin) (i : Nat) (hi : i < v.length) :
    rotateAndPop v i = v.eraseIdx i := by
  have hdrop : v.drop i = v[i] :: v.drop (i + 1) := List.drop_eq_getElem_cons hi
  unfold rotateAndPop
  rw [hdrop, List.rotate_cons_succ, List.rotate_zero, ← List.append_assoc, List.dropLast_concat,
    List.eraseIdx_eq_take_drop_succ]

/-! ## Lemmas on the blacklist -/

/-- The scan passes over a plugin exactly when, if it has the interface, its
factory neither throws an uncaught exception nor returns an instance of the
requested type. -/
theorem not_stops_iff (type : InterfaceType) (name interfacename : String)
    (q : RavePlugin) :
    stops type name interfacename q = false ↔
      (q.HasInterface type interfacename = true →
        q.OpenRAVECreateInterface type name ≠ .threwOther ∧
        ∀ inst, q.OpenRAVECreateInterface type name = .returned (some inst) →
          inst.interfaceType ≠ type) := by
  by_cases hhas : q.HasInterface type interfacename = true
  · cases hc : q.OpenRAVECreateInterface type name with
    | threw => simp [stops, satisfies, escapes, made, hhas, hc]
    | threwOther => simp [stops, satisfies, escapes, made, hhas, hc]
    | returned ptr =>
      cases ptr with
      | none => simp [stops, satisfies, escapes, made, hhas, hc]
      | some inst =>
        by_cases ht : inst.interfaceType = type
        · simp [stops, satisfies, escapes, made, hhas, hc, ht]
        · simp [stops, satisfies, escapes, made, hhas, hc, ht]
  · simp [stops, satisfies, escapes, hhas]

/-- When the name block leaves the pointer null and the name is accepted,
`Create` is the plugin scan followed by the two checks on the pointer. -/
theorem Create_of_scan (ps : List RavePlugin) (type : InterfaceType) (name : String)
    (hd : (createDefault type name).1 = none)
    (hpos : position (createDefault type name).2 ≠ 0) :
    Create ps type name =
      ⟨finalCheck type (robotCheck type
          (scanPlugins type (createDefault type name).2
            (substr0 (createDefault type name).2 (position (createDefault type name).2))
            none 0 ps).pointer),
        (scanPlugins type (createDefault type name).2
          (substr0 (createDefault type name).2 (position (createDefault type name).2))
          none 0 ps).plugins,
        (scanPlugins type (createDefault type name).2
          (substr0 (createDefault type name).2 (position (createDefault type name).2))
          none 0 ps).calls,
        (scanPlugins type (createDefault type name).2
          (substr0 (createDefault type name).2 (position (createDefault type name).2))
          none 0 ps).escaped⟩ := by
  by_cases he : (scanPlugins type (createDefault type name).2
      (substr0 (createDefault type name).2 (position (createDefault type name).2))
      none 0 ps).escaped = true
  · have hp := scan_pointer_of_escaped type _ _ ps 0 he
    simp [Create, hd, hpos, he, hp, robotCheck, finalCheck]
  · simp [Create, hd, hpos, he]

/-- The log of `Create` is empty or the log of one scan of the plugin list. -/
theorem Create_calls (ps : List RavePlugin) (type : InterfaceType) (name : String) :
    (Create ps type name).calls = [] ∨
      ∃ n iname, (Create ps type name).calls = (scanPlugins type n iname none 0 ps).calls := by
  cases hd : (createDefault type name).1 with
  | some p => left; simp [Create, hd]
  | none =>
    by_cases hpos : position (createDefault type name).2 = 0
    · left; simp [Create, hd, hpos]
    · right
      exact ⟨_, _, by rw [Create_of_scan ps type name hd hpos]⟩

/-! ## Lemmas on the lifecycle broadcasts -/

/-- Hooks that return are passed over: the broadcast over `pre ++ rest` calls
every hook of `pre` and goes on with `rest`. -/
theorem hookLoop_append (hook : RavePlugin → HookOutcome) (pre rest : List RavePlugin) (k : Nat)
    (h : ∀ q ∈ pre, hook q = .returned) :
    hookLoop hook k (pre ++ rest) =
      ⟨List.range' k pre.length ++ (hookLoop hook (k + pre.length) rest).called,
        (hookLoop hook (k + pre.length) rest).threw⟩ := by
  induction pre generalizing k with
  | nil => simp
  | cons q qs ih =>
    have hq : hook q = .returned := h q (by simp)
    have hqs : ∀ r ∈ qs, hook r = .returned := fun r hr => h r (by simp [hr])
    have e : k + 1 + qs.length = k + (qs.length + 1) := by omega
    rw [List.cons_append]
    simp only [hookLoop, hq, List.length_cons, List.range'_succ, List.cons_append]
    rw [ih (k + 1) hqs, e]

theorem hookLoop_all_returned (hook : RavePlugin → HookOutcome) (ps : List RavePlugin)
    (h : ∀ q ∈ ps, hook q = .returned) :
    hookLoop hook 0 ps = ⟨List.range ps.length, false⟩ := by
  have := hookLoop_append hook ps [] 0 h
  simpa [hookLoop, List.range_eq_range'] using this

theorem hookLoop_first_throw (hook : RavePlugin → HookOutcome) (pre post : List RavePlugin)
    (p : RavePlugin) (h : ∀ q ∈ pre, hook q = .returned) (hp : hook p = .threw) :
    hookLoop hook 0 (pre ++ p :: post) = ⟨List.range (pre.length + 1), true⟩ := by
  rw [hookLoop_append hook pre (p :: post) 0 h]
  simp [hookLoop, hp, List.range_eq_range', List.range'_concat]

/-! ## Lemmas on the pointer that `Create` returns -/

theorem made_type (type : InterfaceType) (name : String) (p : RavePlugin)
    (res : InterfaceBase) (h : made type name p = some res) : res.interfaceType = type := by
  unfold made at h
  cases hc : p.OpenRAVECreateInterface type name with
  | threw => simp [hc] at h
  | threwOther => simp [hc] at h
  | returned ptr =>
    cases ptr with
    | none => simp [hc] at h
    | some inst =>
      by_cases ht : inst.interfaceType = type
      · simp only [hc, ht, if_true, Option.some.injEq] at h
        rw [← h]
      · simp [hc, ht] at h

theorem scan_pointer_type (type : InterfaceType) (name interfacename : String)
    (ps : List RavePlugin) (k : Nat) (res : InterfaceBase)
    (h : (scanPlugins type name interfacename none k ps).pointer = some res) :
    res.interfaceType = type := by
  induction ps generalizing k with
  | nil => simp [scanPlugins] at h
  | cons p rest ih =>
    by_cases hs : stops type name interfacename p = true
    · rw [scan_cons_stops type name interfacename k p rest hs] at h
      exact made_type type name p res h
    · have hs' : stops type name interfacename p = false := by simpa using hs
      rw [scan_cons_unsatisfied type name interfacename k p rest hs'] at h
      exact ih (k + 1) h

theorem take_position_eq_takeWhile (s : List Char) :
    s.take (match find_first_of s ' ' with
      | some i => min i s.length
      | none => s.length) = s.takeWhile (fun c => c ≠ ' ') := by
  induction s with
  | nil => simp [find_first_of]
  | cons x xs ih =>
    by_cases hx : x = ' '
    · simp [find_first_of, hx]
    · cases hf : find_first_of xs ' ' with
      | none =>
        rw [hf] at ih
        simp only [List.take_length] at ih
        simp only [find_first_of, hx, if_false, hf, Option.map_none', List.take_length]
        rw [List.takeWhile_cons_of_pos (by simpa using hx), ← ih]
      | some i =>
        rw [hf] at ih
        simp only [find_first_of, hx, if_false, hf, Option.map_some', List.length_cons,
          Nat.add_min_add_right, List.take_succ_cons]
        rw [List.takeWhile_cons_of_pos (by simpa using hx), ih]

theorem substr0_position_eq_lookupKey (name : String) :
    substr0 name (position name) = lookupKey name := by
  have := take_position_eq_takeWhile name.data
  simp only [substr0, position, lookupKey]
  rw [this]

theorem lookupKey_of_no_space (name : String) (h : ' ' ∉ name.data) : lookupKey name = name := by
  rw [← substr0_position_eq_lookupKey, substr0_position_of_no_space name h]

theorem split_at_first_space (s : List Char) (h : ' ' ∈ s) :
    s = s.takeWhile (fun c => c ≠ ' ') ++ ' ' :: (s.dropWhile (fun c => c ≠ ' ')).drop 1 := by
  induction s with
  | nil => simp at h
  | cons x xs ih =>
    by_cases hx : x = ' '
    · subst hx; simp
    · have hxs : ' ' ∈ xs := by
        rcases List.mem_cons.1 h with e | e
        · exact absurd e.symm hx
        · exact e
      rw [List.takeWhile_cons_of_pos (by simpa using hx),
        List.dropWhile_cons_of_pos (by simpa using hx), List.cons_append, ← ih hxs]

theorem hasInterface_mem_visitCalls (type : InterfaceType) (name interfacename : String)
    (k j : Nat) (t : InterfaceType) (n : String) (p : RavePlugin)
    (h : Call.HasInterface j t n ∈ visitCalls type name interfacename k p) :
    t = type ∧ n = interfacename := by
  by_cases hhas : p.HasInterface type interfacename = true
  · cases hc : p.OpenRAVECreateInterface type name with
    | threw => simp [visitCalls, hhas, hc] at h; exact ⟨h.2.1, h.2.2⟩
    | threwOther => simp [visitCalls, hhas, hc] at h; exact ⟨h.2.1, h.2.2⟩
    | returned ptr =>
      cases ptr with
      | none => simp [visitCalls, hhas, hc] at h; exact ⟨h.2.1, h.2.2⟩
      | some inst =>
        by_cases ht : inst.interfaceType = type
        · simp [visitCalls, hhas, hc, ht] at h; exact ⟨h.2.1, h.2.2⟩
        · simp [visitCalls, hhas, hc, ht] at h; exact ⟨h.2.1, h.2.2⟩
  · simp [visitCalls, hhas] at h; exact ⟨h.2.1, h.2.2⟩

theorem hasInterface_mem_scan (type : InterfaceType) (name interfacename : String)
    (ps : List RavePlugin) (k j : Nat) (t : InterfaceType) (n : String)
    (h : Call.HasInterface j t n ∈ (scanPlugins type name interfacename none k ps).calls) :
    t = type ∧ n = interfacename := by
  induction ps generalizing k with
  | nil => simp [scanPlugins] at h
  | cons p rest ih =>
    by_cases hs : stops type name interfacename p = true
    · rw [scan_cons_stops type name interfacename k p rest hs] at h
      simp only [List.mem_cons, Call.HasInterface.injEq, reduceCtorEq, List.not_mem_nil,
        or_false] at h
      exact ⟨h.2.1, h.2.2⟩
    · have hs' : stops type name interfacename p = false := by simpa using hs
      rw [scan_cons_unsatisfied type name interfacename k p rest hs'] at h
      simp only [List.mem_append] at h
      rcases h with h | h
      · exact hasInterface_mem_visitCalls type name interfacename k j t n p h
      · exact ih (k + 1) h

/-! ## Lemmas on the discovery walk -/

mutual
/-- The walk loads, one after the other, the non-empty regular files with the
plugin extension at or below the node, whatever the `recurse` flag, and is
left at the first load that an exception leaves. -/
theorem loadPluginsFromNode_eq (loader : Loader) (ext : String) :
    ∀ (st : WalkState) (node : FsNode) (recurse : Bool), st.escaped = false →
      loadPluginsFromNode loader ext st node recurse =
        loadCandidates loader (FsNode.pluginFiles ext node) st
  | st, .other _, _ => by
    intro _
    simp [loadPluginsFromNode, FsNode.pluginFiles, loadCandidates]
  | st, .file path extension isEmpty, _ => by
    intro _
    by_cases he : isEmpty = true
    · simp [loadPluginsFromNode, FsNode.pluginFiles, he, loadCandidates]
    · by_cases hx : extension ≠ "" ∧ extension = ext
      · obtain ⟨h1, h2⟩ := hx
        subst h2
        have h1' : ¬ extension = "" := h1
        simp only [loadPluginsFromNode, FsNode.pluginFiles, he, h1, h1', ne_eq, not_false_eq_true,
          and_self, if_true, if_false, Bool.false_eq_true, loadCandidates]
        cases hesc : (_LoadPlugin loader st.db path).escaped <;> simp [hesc]
      · simp only [loadPluginsFromNode, FsNode.pluginFiles, he, hx]
        simp [loadCandidates]
  | st, .dir _ entries, recurse => by
    intro hst
    cases entries with
    | nil =>
      simp [loadPluginsFromNode, FsNode.pluginFiles, FsNode.pluginFilesOfEntries,
        loadCandidates]
    | cons e es =>
      simp only [loadPluginsFromNode, FsNode.pluginFiles, List.isEmpty_cons, Bool.false_eq_true,
        if_false]
      exact loadPluginsFromEntries_eq loader ext st (e :: es) recurse hst
/-- The same for the loop over the entries of a directory. -/
theorem loadPluginsFromEntries_eq (loader : Loader) (ext : String) :
    ∀ (st : WalkState) (entries : List FsNode) (recurse : Bool), st.escaped = false →
      loadPluginsFromEntries loader ext st entries recurse =
        loadCandidates loader (FsNode.pluginFilesOfEntries ext entries) st
  | st, [], _ => by
    intro _
    simp [loadPluginsFromEntries, FsNode.pluginFilesOfEntries, loadCandidates]
  | st, entry :: rest, recurse => by
    intro hst
    have h1 : (if (entry.isDirectory && recurse) = true then
          loadPluginsFromNode loader ext st entry true
        else loadPluginsFromNode loader ext st entry false) =
        loadCandidates loader (FsNode.pluginFiles ext entry) st := by
      split
      · exact loadPluginsFromNode_eq loader ext st entry true hst
      · exact loadPluginsFromNode_eq loader ext st entry false hst
    simp only [loadPluginsFromEntries, FsNode.pluginFilesOfEntries, h1]
    rw [loadCandidates_append loader _ _ st hst]
    by_cases hesc : (loadCandidates loader (FsNode.pluginFiles ext entry) st).escaped = true
    · simp [hesc]
    · have hesc' : (loadCandidates loader (FsNode.pluginFiles ext entry) st).escaped = false := by
        simpa using hesc
      simp only [hesc', Bool.false_eq_true, if_false]
      exact loadPluginsFromEntries_eq loader ext _ rest recurse hesc'
end

theorem _LoadPluginsFromPath_eq (host : Host) (db : DynamicRaveDatabase) (strpath : String)
    (recurse : Bool) :
    _LoadPluginsFromPath host db strpath recurse =
      loadCandidates host.loader (FsNode.pluginFiles host.PLUGIN_EXT (host.lookup strpath))
        ⟨db, [], false⟩ :=
  loadPluginsFromNode_eq host.loader host.PLUGIN_EXT ⟨db, [], false⟩ _ recurse rfl

/-! ## Lemmas on the registry invariant -/

theorem handlesCoverPlugins_iff (db : DynamicRaveDatabase) :
    handlesCoverPlugins db = true ↔
      ∀ p ∈ db._vPlugins, p.isVirtual = true ∨
        p.pluginPath ∈ db._mapLibraryHandles.map Prod.fst := by
  simp [handlesCoverPlugins, List.all_eq_true]

theorem Preserves.refl (db : DynamicRaveDatabase) : Preserves db db :=
  ⟨fun h => h, List.prefix_refl _⟩

theorem Preserves.trans {a b c : DynamicRaveDatabase} (h1 : Preserves a b) (h2 : Preserves b c) :
    Preserves a c :=
  ⟨fun h => h2.1 (h1.1 h), h1.2.trans h2.2⟩

/-- Dropping descriptors, or changing only the search paths, preserves. -/
theorem Preserves.of_subset (db : DynamicRaveDatabase) (v : List RavePlugin)
    (dirs : List String) (hv : ∀ p ∈ v, p ∈ db._vPlugins) :
    Preserves db { db with _vPlugins := v, _vPluginDirs := dirs } := by
  refine ⟨?_, List.prefix_refl _⟩
  rw [handlesCoverPlugins_iff, handlesCoverPlugins_iff]
  intro h p hp
  exact h p (hv p hp)

theorem emplace_extends (m : List (String × DynamicLibrary)) (key : String)
    (dylib : DynamicLibrary) : m <+: emplace m key dylib := by
  unfold emplace
  split
  · exact List.prefix_refl _
  · exact List.prefix_append _ _

theorem key_mem_emplace (m : List (String × DynamicLibrary)) (key : String)
    (dylib : DynamicLibrary) : key ∈ (emplace m key dylib).map Prod.fst := by
  unfold emplace
  split
  · next h =>
    simp only [List.any_eq_true, beq_iff_eq] at h
    obtain ⟨e, he, hk⟩ := h
    exact List.mem_map.2 ⟨e, he, hk⟩
  · simp

theorem _LoadPlugin_preserves (loader : Loader) (db : DynamicRaveDatabase) (strpath : String) :
    Preserves db (_LoadPlugin loader db strpath).db := by
  unfold _LoadPlugin
  cases loader strpath with
  | none => exact Preserves.refl db
  | some dylib =>
    cases hsym : dylib.CreatePlugin with
    | none => simp only [hsym]; exact Preserves.refl db
    | some fn =>
      have hok : ∀ plugin : RavePlugin, Preserves db
          { db with
            _mapLibraryHandles := emplace db._mapLibraryHandles strpath dylib
            _vPlugins := db._vPlugins ++ [{ plugin with pluginPath := strpath }] } := by
        intro plugin
        refine ⟨?_, emplace_extends _ _ _⟩
        rw [handlesCoverPlugins_iff, handlesCoverPlugins_iff]
        intro h p hp
        simp only [List.mem_append, List.mem_singleton] at hp
        rcases hp with hp | hp
        · rcases h p hp with hv | hk
          · exact Or.inl hv
          · right
            exact (List.Sublist.map Prod.fst (emplace_extends _ strpath dylib).sublist).subset hk
        · right
          subst hp
          exact key_mem_emplace _ _ _
      cases fn with
      | threw => simp only [hsym]; exact Preserves.refl db
      | threwOther => simp only [hsym]; exact Preserves.refl db
      | returned p =>
        cases p with
        | none => simp only [hsym]; exact Preserves.refl db
        | some plugin => simp only [hsym]; exact hok plugin

theorem loadCandidates_preserves (loader : Loader) (paths : List String) :
    ∀ st : WalkState, Preserves st.db (loadCandidates loader paths st).db := by
  induction paths with
  | nil => intro st; exact Preserves.refl _
  | cons path rest ih =>
    intro st
    simp only [loadCandidates]
    split
    · exact _LoadPlugin_preserves loader st.db path
    · exact Preserves.trans (_LoadPlugin_preserves loader st.db path)
        (ih ⟨(_LoadPlugin loader st.db path).db,
          st.calls ++ (_LoadPlugin loader st.db path).calls, false⟩)

/-- The discovery walk changes the registry only through `_LoadPlugin`. -/
theorem _LoadPluginsFromPath_preserves (host : Host) (db : DynamicRaveDatabase)
    (strpath : String) (recurse : Bool) :
    Preserves db (_LoadPluginsFromPath host db strpath recurse).db := by
  rw [_LoadPluginsFromPath_eq]
  exact loadCandidates_preserves host.loader _ ⟨db, [], false⟩

theorem initLoadLoop_preserves (host : Host) (dirs : List String) :
    ∀ st : WalkState, Preserves st.db (initLoadLoop host dirs st).db := by
  induction dirs with
  | nil => intro st; exact Preserves.refl _
  | cons entry rest ih =>
    intro st
    simp only [initLoadLoop]
    split
    · exact _LoadPluginsFromPath_preserves host st.db entry host.recurse
    · exact Preserves.trans (_LoadPluginsFromPath_preserves host st.db entry host.recurse)
        (ih ⟨(_LoadPluginsFromPath host st.db entry host.recurse).db,
          st.calls ++ (_LoadPluginsFromPath host st.db entry host.recurse).calls, false⟩)

theorem Init_preserves (host : Host) (db : DynamicRaveDatabase) :
    Preserves db (Init host db).db := by
  unfold Init
  cases host.OPENRAVE_PLUGINS with
  | none => exact Preserves.refl db
  | some tokens =>
    simp only
    exact Preserves.trans (Preserves.of_subset db db._vPlugins _ (fun _ h => h))
      (initLoadLoop_preserves host _ ⟨_, [], false⟩)

theorem ReloadPlugins_preserves (loader : Loader) (db : DynamicRaveDatabase) :
    Preserves db (ReloadPlugins loader db).db := by
  simp only [ReloadPlugins, reloadLoop_eq_loadCandidates]
  exact loadCandidates_preserves loader _ ⟨db, [], false⟩

theorem LoadPlugin_preserves (loader : Loader) (db : DynamicRaveDatabase)
    (libraryname : String) : Preserves db (LoadPlugin loader db libraryname).db := by
  simp only [LoadPlugin]
  refine Preserves.trans ?_ (_LoadPlugin_preserves loader _ libraryname)
  split
  · next hlt =>
    rw [rotateAndPop_eq_eraseIdx _ _ hlt]
    exact Preserves.of_subset db _ db._vPluginDirs
      (fun p hp => (List.eraseIdx_sublist _ _).subset hp)
  · exact Preserves.refl db

theorem destroyLoop_eq_nil (fuel : Nat) :
    ∀ v : List RavePlugin, v.length ≤ fuel → destroyLoop fuel v = [] := by
  induction fuel with
  | zero =>
    intro v hv
    have : v = [] := List.length_eq_zero.1 (Nat.le_zero.1 hv)
    subst this; rfl
  | succ fuel ih =>
    intro v hv
    simp only [destroyLoop]
    cases v with
    | nil => rfl
    | cons x xs =>
      simp only [List.isEmpty_cons, Bool.false_eq_true, if_false]
      apply ih
      simp only [List.length_dropLast, List.length_cons] at hv ⊢
      omega

theorem attrs_visit (type : InterfaceType) (name interfacename : String) (p : RavePlugin) :
    (visit type name interfacename p).pluginPath = p.pluginPath ∧
      (visit type name interfacename p).isVirtual = p.isVirtual := by
  have hadd : ∀ (t : InterfaceType) (n : String),
      (p.AddBadInterface t n).pluginPath = p.pluginPath ∧
        (p.AddBadInterface t n).isVirtual = p.isVirtual := by
    intro t n
    unfold RavePlugin.AddBadInterface
    split <;> exact ⟨rfl, rfl⟩
  unfold visit
  split
  · split
    · exact hadd _ _
    · split
      · exact hadd _ _
      · exact ⟨rfl, rfl⟩
    · exact ⟨rfl, rfl⟩
    · exact ⟨rfl, rfl⟩
  · exact ⟨rfl, rfl⟩

/-- The scan leaves the path and the kind of every descriptor as they were. -/
theorem scan_plugins_attrs (type : InterfaceType) (name interfacename : String)
    (ps : List RavePlugin) (k : Nat) :
    (scanPlugins type name interfacename none k ps).plugins.map
        (fun p => (p.pluginPath, p.isVirtual)) =
      ps.map (fun p => (p.pluginPath, p.isVirtual)) := by
  induction ps generalizing k with
  | nil => simp [scanPlugins]
  | cons p rest ih =>
    by_cases hs : stops type name interfacename p = true
    · rw [scan_cons_stops type name interfacename k p rest hs]
    · have hs' : stops type name interfacename p = false := by simpa using hs
      rw [scan_cons_unsatisfied type name interfacename k p rest hs']
      simp only [List.map_cons, ih (k + 1), (attrs_visit type name interfacename p).1,
        (attrs_visit type name interfacename p).2]

theorem Create_plugins_attrs (ps : List RavePlugin) (type : InterfaceType) (name : String) :
    (Create ps type name).plugins.map (fun p => (p.pluginPath, p.isVirtual)) =
      ps.map (fun p => (p.pluginPath, p.isVirtual)) := by
  cases hd : (createDefault type name).1 with
  | some p => simp [Create, hd]
  | none =>
    by_cases hpos : position (createDefault type name).2 = 0
    · simp [Create, hd, hpos]
    · rw [Create_of_scan ps type name hd hpos, scan_plugins_attrs]

theorem Create_preserves (db : DynamicRaveDatabase) (type : InterfaceType) (name : String) :
    Preserves db { db with _vPlugins := (Create db._vPlugins type name).plugins } := by
  refine ⟨?_, List.prefix_refl _⟩
  have hall : ∀ (v : List RavePlugin) (m : List (String × DynamicLibrary)) (dirs : List String),
      handlesCoverPlugins ⟨v, m, dirs⟩ =
        (v.map (fun p => (p.pluginPath, p.isVirtual))).all
          (fun a => a.2 || (m.map Prod.fst).contains a.1) := by
    intro v m dirs
    unfold handlesCoverPlugins
    induction v with
    | nil => rfl
    | cons x xs ih =>
      simp only [List.map_cons, List.all_cons]
      simp only at ih
      rw [ih]
  intro h
  have h1 := hall db._vPlugins db._mapLibraryHandles db._vPluginDirs
  rw [h] at h1
  rw [hall, Create_plugins_attrs]
  exact h1.symm

theorem Operation_apply_preserves (host : Host) (db : DynamicRaveDatabase) (op : Operation) :
    Preserves db (op.apply host db) := by
  cases op with
  | Init => exact Init_preserves host db
  | LoadPlugin libraryname => exact LoadPlugin_preserves host.loader db libraryname
  | ReloadPlugins => exact ReloadPlugins_preserves host.loader db
  | AddVirtualPlugin type name createfn =>
    refine ⟨?_, List.prefix_refl _⟩
    simp only [Operation.apply, AddVirtualPlugin]
    rw [handlesCoverPlugins_iff, handlesCoverPlugins_iff]
    intro h p hp
    simp only [List.mem_append, List.mem_singleton] at hp
    rcases hp with hp | hp
    · exact h p hp
    · subst hp; exact Or.inl rfl
  | Create type name => exact Create_preserves db type name
  | Destroy =>
    simp only [Operation.apply, Destroy]
    rw [destroyLoop_eq_nil _ _ (Nat.le_refl _)]
    exact Preserves.of_subset db [] db._vPluginDirs (fun p hp => by simp at hp)

theorem runOperations_preserves (host : Host) (ops : List Operation) :
    ∀ db : DynamicRaveDatabase, Preserves db (runOperations host ops db) := by
  induction ops with
  | nil => intro db; exact Preserves.refl db
  | cons op rest ih =>
    intro db
    exact Preserves.trans (Operation_apply_preserves host db op) (ih _)

/-! ## Lemmas on where the scan ends -/

/-- The scan ends at `p`, by `break` or by an exception, after passing over
every plugin of `pre`. -/
theorem Create_stops_at (pre post : List RavePlugin) (p : RavePlugin) (type : InterfaceType)
    (name : String) (hne : name.data ≠ []) (hsp : name.data.head? ≠ some ' ')
    (hpre : ∀ q ∈ pre, stops type name (substr0 name (position name)) q = false)
    (hp : stops type name (substr0 name (position name)) p = true) :
    Create (pre ++ p :: post) type name =
      ⟨finalCheck type (robotCheck type (made type name p)),
        pre.map (visit type name (substr0 name (position name))) ++ p :: post,
        visitAllCalls type name (substr0 name (position name)) 0 pre ++
          [Call.HasInterface pre.length type (substr0 name (position name)),
            Call.OpenRAVECreateInterface pre.length type name],
        escapes type name (substr0 name (position name)) p⟩ := by
  rw [Create_eq_scan _ type name hne hsp, scan_append type name _ pre (p :: post) 0 hpre,
    scan_cons_stops type name _ _ p post hp]
  simp only [Nat.zero_add]

/-- The scan passes over every plugin of `pre` and over `p`, and goes on with
`post`. -/
theorem Create_passes_over (pre post : List RavePlugin) (p : RavePlugin)
    (type : InterfaceType) (name : String) (hne : name.data ≠ [])
    (hsp : name.data.head? ≠ some ' ')
    (hpre : ∀ q ∈ pre, stops type name (substr0 name (position name)) q = false)
    (hp : stops type name (substr0 name (position name)) p = false) :
    Create (pre ++ p :: post) type name =
      ⟨finalCheck type (robotCheck type
          (scanPlugins type name (substr0 name (position name)) none (pre.length + 1)
            post).pointer),
        pre.map (visit type name (substr0 name (position name))) ++
          visit type name (substr0 name (position name)) p ::
            (scanPlugins type name (substr0 name (position name)) none (pre.length + 1)
              post).plugins,
        visitAllCalls type name (substr0 name (position name)) 0 pre ++
          (visitCalls type name (substr0 name (position name)) pre.length p ++
            (scanPlugins type name (substr0 name (position name)) none (pre.length + 1)
              post).calls),
        (scanPlugins type name (substr0 name (position name)) none (pre.length + 1)
          post).escaped⟩ := by
  rw [Create_eq_scan _ type name hne hsp, scan_append type name _ pre (p :: post) 0 hpre,
    scan_cons_unsatisfied type name _ _ p post hp]
  simp only [Nat.zero_add]

theorem getElem?_map_visit_append (type : InterfaceType) (name interfacename : String)
    (pre rest : List RavePlugin) (x : RavePlugin) :
    (pre.map (visit type name interfacename) ++ x :: rest)[pre.length]? = some x := by
  have hlen : (pre.map (visit type name interfacename)).length = pre.length := by simp
  rw [← hlen, List.getElem?_append_right (Nat.le_refl _)]
  simp

theorem drop_map_visit_append (type : InterfaceType) (name interfacename : String)
    (pre rest : List RavePlugin) :
    (pre.map (visit type name interfacename) ++ rest).drop pre.length = rest := by
  have hlen : (pre.map (visit type name interfacename)).length = pre.length := by simp
  rw [← hlen, List.drop_left]

theorem head_ne_space_of_no_space (name : String) (hne : name.data ≠ [])
    (hsp : ' ' ∉ name.data) : name.data.head? ≠ some ' ' := by
  intro e
  cases hd : name.data with
  | nil => exact hne hd
  | cons x xs => rw [hd] at e hsp; simp at e; subst e; simp at hsp

/-! ## Lemmas on the stickiness of the blacklist -/

/-- C4: `Create(env, KinBody, "")` returns, for every plugin list (the empty
one included), a non-empty instance of interface type KinBody whose
`__strxmlid` is the empty string, makes no call to any plugin and leaves the
plugin list with its blacklists as it was. -/
theorem Create_KinBody_empty_name (ps : List RavePlugin) :
    (∃ body, (Create ps PT_KinBody "").pointer = some body ∧
      body.interfaceType = PT_KinBody ∧ body.__strxmlid = "") ∧
    (Create ps PT_KinBody "").calls = [] ∧
    (Create ps PT_KinBody "").plugins = ps ∧
    (∃ body, (Create [] PT_KinBody "").pointer = some body ∧
      body.interfaceType = PT_KinBody ∧ body.__strxmlid = "") ∧
    (Create ps PT_KinBody "").escaped = false := by
  refine ⟨⟨_, rfl, rfl, rfl⟩, rfl, rfl, ⟨_, rfl, rfl, rfl⟩, rfl⟩

/-- C10: a name that begins with a space, or an empty name with a type that
takes the `default:` branch of the switch, makes `Create` return an empty
result with no call to any plugin and no change to the plugin list or its
blacklists. -/
theorem Create_rejects_misuse (ps : List RavePlugin) (type : InterfaceType) (name : String)
    (h : name.data.head? = some ' ' ∨ (name = "" ∧ ∃ n, type = PT_Other n)) :
    (Create ps type name).pointer = none ∧
    (Create ps type name).calls = [] ∧
    (Create ps type name).plugins = ps ∧
    (Create ps type name).escaped = false := by
  rcases h with h | ⟨hn, n, ht⟩
  · have hne : name.data ≠ [] := by
      intro e; rw [e] at h; simp at h
    have hpos : position name = 0 := (position_eq_zero_iff name).2 (Or.inr h)
    simp [Create, createDefault_of_nonempty type name hne, hpos]
  · subst hn ht
    refine ⟨rfl, rfl, rfl, rfl⟩

/-- Witness of C10: a name with a leading space on a registry whose plugin
provides the interface, and an empty name for a type without default. -/
theorem Create_rejects_misuse_witness :
    ((Create [pluginGood] PT_Robot " Foo").pointer = none ∧
      (Create [pluginGood] PT_Robot " Foo").calls = [] ∧
      (Create [pluginGood] PT_Robot " Foo").plugins = [pluginGood] ∧
      (Create [pluginGood] PT_Robot " Foo").escaped = false) ∧
    ((Create [pluginGood] (PT_Other 0) "").pointer = none ∧
      (Create [pluginGood] (PT_Other 0) "").calls = [] ∧
      (Create [pluginGood] (PT_Other 0) "").plugins = [pluginGood] ∧
      (Create [pluginGood] (PT_Other 0) "").escaped = false) :=
  ⟨Create_rejects_misuse [pluginGood] PT_Robot " Foo" (Or.inl (by decide)),
    Create_rejects_misuse [pluginGood] (PT_Other 0) "" (Or.inr ⟨rfl, 0, rfl⟩)⟩

/-- C1 (amended): for a non-empty name that does not start with a space,
`Create` returns the instance of the first plugin that has the interface and
whose factory returns a non-null instance of the requested type, provided
that for a Robot request the instance reports `IsRobot()` and that no earlier
plugin with the interface has a factory that throws something that is not a
`std::exception`. The instance carries that plugin's path and the requested
name; every earlier plugin that has the interface had its factory called and
was passed over; no later plugin has its factory called; the successful
plugin and the later ones are left as they were. When instead the first
plugin at which the scan ends has a factory that throws something that is
not a `std::exception`, the exception leaves `Create`: nothing is returned
and no later plugin has its factory called. In particular, of two plugins
where only the second provides `(Robot, "Foo")`, the second one's instance
is returned. -/
theorem Create_returns_first_satisfying :
    (∀ (pre post : List RavePlugin) (p : RavePlugin) (type : InterfaceType) (name : String)
        (inst : InterfaceBase),
      name.data ≠ [] → name.data.head? ≠ some ' ' →
      (∀ q ∈ pre, q.HasInterface type (substr0 name (position name)) = true →
        q.OpenRAVECreateInterface type name ≠ .threwOther ∧
        ∀ made, q.OpenRAVECreateInterface type name = .returned (some made) →
          made.interfaceType ≠ type) →
      p.HasInterface type (substr0 name (position name)) = true →
      p.OpenRAVECreateInterface type name = .returned (some inst) →
      inst.interfaceType = type →
      (type = PT_Robot → inst.isRobot = true) →
        (Create (pre ++ p :: post) type name).pointer =
            some { inst with __strpluginname := p.pluginPath, __strxmlid := name } ∧
        (Create (pre ++ p :: post) type name).escaped = false ∧
        (∀ i q, pre[i]? = some q → q.HasInterface type (substr0 name (position name)) = true →
          Call.OpenRAVECreateInterface i type name ∈
            (Create (pre ++ p :: post) type name).calls) ∧
        Call.OpenRAVECreateInterface pre.length type name ∈
          (Create (pre ++ p :: post) type name).calls ∧
        (∀ j t n, Call.OpenRAVECreateInterface j t n ∈
          (Create (pre ++ p :: post) type name).calls → j ≤ pre.length) ∧
        (Create (pre ++ p :: post) type name).plugins.drop pre.length = p :: post) ∧
    (∀ (pre post : List RavePlugin) (p : RavePlugin) (type : InterfaceType) (name : String),
      name.data ≠ [] → name.data.head? ≠ some ' ' →
      (∀ q ∈ pre, q.HasInterface type (substr0 name (position name)) = true →
        q.OpenRAVECreateInterface type name ≠ .threwOther ∧
        ∀ made, q.OpenRAVECreateInterface type name = .returned (some made) →
          made.interfaceType ≠ type) →
      p.HasInterface type (substr0 name (position name)) = true →
      p.OpenRAVECreateInterface type name = .threwOther →
        (Create (pre ++ p :: post) type name).escaped = true ∧
        (Create (pre ++ p :: post) type name).pointer = none ∧
        (∀ j t n, Call.OpenRAVECreateInterface j t n ∈
          (Create (pre ++ p :: post) type name).calls → j ≤ pre.length) ∧
        (Create (pre ++ p :: post) type name).plugins.drop pre.length = p :: post) ∧
    (∀ (p1 p2 : RavePlugin) (inst : InterfaceBase),
      "Foo" ∉ p1.interfaces PT_Robot →
      p2.HasInterface PT_Robot "Foo" = true →
      p2.OpenRAVECreateInterface PT_Robot "Foo" = .returned (some inst) →
      inst.interfaceType = PT_Robot → inst.isRobot = true →
        (Create [p1, p2] PT_Robot "Foo").pointer =
          some { inst with __strpluginname := p2.pluginPath, __strxmlid := "Foo" }) := by
  have hcalls : ∀ (pre : List RavePlugin) (type : InterfaceType) (name : String) (j : Nat)
      (t : InterfaceType) (n : String),
      Call.OpenRAVECreateInterface j t n ∈
        visitAllCalls type name (substr0 name (position name)) 0 pre ++
          [Call.HasInterface pre.length type (substr0 name (position name)),
            Call.OpenRAVECreateInterface pre.length type name] → j ≤ pre.length := by
    intro pre type name j t n hj
    simp only [List.mem_append, List.mem_cons, reduceCtorEq, false_or,
      Call.OpenRAVECreateInterface.injEq, List.mem_singleton, List.not_mem_nil, or_false] at hj
    rcases hj with hj | hj
    · have := create_mem_visitAllCalls type name _ pre 0 j t n hj
      omega
    · omega
  have main : ∀ (pre post : List RavePlugin) (p : RavePlugin) (type : InterfaceType)
      (name : String) (inst : InterfaceBase),
      name.data ≠ [] → name.data.head? ≠ some ' ' →
      (∀ q ∈ pre, stops type name (substr0 name (position name)) q = false) →
      p.HasInterface type (substr0 name (position name)) = true →
      p.OpenRAVECreateInterface type name = .returned (some inst) →
      inst.interfaceType = type →
      (type = PT_Robot → inst.isRobot = true) →
        Create (pre ++ p :: post) type name =
          ⟨some { inst with __strpluginname := p.pluginPath, __strxmlid := name },
            pre.map (visit type name (substr0 name (position name))) ++ p :: post,
            visitAllCalls type name (substr0 name (position name)) 0 pre ++
              [Call.HasInterface pre.length type (substr0 name (position name)),
                Call.OpenRAVECreateInterface pre.length type name],
            false⟩ := by
    intro pre post p type name inst hne hsp hpre hhas hcreate htype hrobot
    have hstop : stops type name (substr0 name (position name)) p = true := by
      simp [stops, satisfies, made, hhas, hcreate, htype]
    have hesc : escapes type name (substr0 name (position name)) p = false := by
      simp [escapes, hcreate]
    have hmade : made type name p =
        some { inst with __strpluginname := p.pluginPath, __strxmlid := name } := by
      simp [made, hcreate, htype]
    rw [Create_stops_at pre post p type name hne hsp hpre hstop, hmade, hesc]
    simp only [robotCheck, finalCheck]
    by_cases hr : type = PT_Robot
    · simp [hr, hrobot hr, htype.trans hr]
    · simp [hr, htype]
  refine ⟨?_, ?_, ?_⟩
  · intro pre post p type name inst hne hsp hpre hhas hcreate htype hrobot
    have hpre' : ∀ q ∈ pre, stops type name (substr0 name (position name)) q = false :=
      fun q hq => (not_stops_iff type name _ q).2 (hpre q hq)
    rw [main pre post p type name inst hne hsp hpre' hhas hcreate htype hrobot]
    refine ⟨rfl, rfl, ?_, ?_, hcalls pre type name, ?_⟩
    · intro i q hq hqhas
      have := create_mem_visitAllCalls_of_has type name _ pre 0 i q hq hqhas
      simp only [Nat.zero_add] at this
      exact List.mem_append_left _ this
    · simp
    · exact drop_map_visit_append type name _ pre (p :: post)
  · intro pre post p type name hne hsp hpre hhas hcreate
    have hpre' : ∀ q ∈ pre, stops type name (substr0 name (position name)) q = false :=
      fun q hq => (not_stops_iff type name _ q).2 (hpre q hq)
    have hesc : escapes type name (substr0 name (position name)) p = true := by
      simp [escapes, hhas, hcreate]
    have hstop : stops type name (substr0 name (position name)) p = true := by
      simp [stops, hesc]
    rw [Create_stops_at pre post p type name hne hsp hpre' hstop,
      made_of_escapes type name _ p hesc, hesc]
    exact ⟨rfl, rfl, hcalls pre type name, drop_map_visit_append type name _ pre (p :: post)⟩
  · intro p1 p2 inst h1 h2 hc ht hr
    have e : substr0 "Foo" (position "Foo") = "Foo" := by decide
    have hpre : ∀ q ∈ [p1], stops PT_Robot "Foo" (substr0 "Foo" (position "Foo")) q = false := by
      intro q hq
      simp only [List.mem_singleton] at hq
      subst hq
      simp [stops, satisfies, escapes, RavePlugin.HasInterface, e, h1]
    have := main [p1] [] p2 PT_Robot "Foo" inst (by decide) (by decide) hpre (by rw [e]; exact h2)
      hc ht (fun _ => hr)
    simp only [List.singleton_append] at this
    rw [this]

/-- Witness of C1 (amended): a plugin throwing a `std::exception`, then a good
one, then a later one, all providing `(Robot, "Foo")`; a plugin whose factory
throws something else in front of a good one; and a first plugin that does
not provide `(Robot, "Foo")` followed by one that does. -/
theorem Create_returns_first_satisfying_witness :
    ((Create ([pluginThrows] ++ pluginGood :: [pluginLate]) PT_Robot "Foo").pointer =
        some { exampleRobot with __strpluginname := "/plugins/libgood.so", __strxmlid := "Foo" } ∧
      (∀ j t n, Call.OpenRAVECreateInterface j t n ∈
        (Create ([pluginThrows] ++ pluginGood :: [pluginLate]) PT_Robot "Foo").calls → j ≤ 1)) ∧
    ((Create ([] ++ pluginThrowsOther :: [pluginGood]) PT_Robot "Foo").escaped = true ∧
      (Create ([] ++ pluginThrowsOther :: [pluginGood]) PT_Robot "Foo").pointer = none) ∧
    (Create [pluginOther, pluginGood] PT_Robot "Foo").pointer =
      some { exampleRobot with __strpluginname := "/plugins/libgood.so", __strxmlid := "Foo" } :=
  have h := Create_returns_first_satisfying.1 [pluginThrows] [pluginLate] pluginGood PT_Robot
    "Foo" exampleRobot (by decide) (by decide)
    (by
      intro q hq _
      simp only [List.mem_singleton] at hq
      subst hq
      exact ⟨by decide, fun made hmade => by simp [pluginThrows, examplePlugin] at hmade⟩)
    (by decide) rfl rfl (fun _ => rfl)
  have h2 := Create_returns_first_satisfying.2.1 [] [pluginGood] pluginThrowsOther PT_Robot
    "Foo" (by decide) (by decide) (by simp) (by decide) rfl
  ⟨⟨h.1, h.2.2.2.2.1⟩, ⟨h2.1, h2.2.1⟩,
    Create_returns_first_satisfying.2.2 pluginOther pluginGood exampleRobot (by decide)
      (by decide) rfl rfl rfl⟩

/-- Counterexample to C1 as stated: the only plugin has `(Robot, "Foo")` and
its factory returns a non-null instance whose declared type is Robot, yet
`Create` returns an empty result, because the instance does not report
`IsRobot()`. -/
theorem Create_first_satisfying_counterexample :
    pluginFakeRobot.HasInterface PT_Robot "Foo" = true ∧
    pluginFakeRobot.OpenRAVECreateInterface PT_Robot "Foo" = .returned (some exampleFakeRobot) ∧
    exampleFakeRobot.interfaceType = PT_Robot ∧
    (Create [pluginFakeRobot] PT_Robot "Foo").pointer = none ∧
    (Create [pluginFakeRobot] PT_Robot "Foo").escaped = false := by
  decide

/-- When the name carries creation parameters, the catch block blacklists
the full name while `HasInterface` is asked for the interface name: after the
factory threw on `(Robot, "Foo arg")` the blacklist holds `(Robot, "Foo arg")`,
the plugin still has `(Robot, "Foo")`, and the next `Create` with the same
name calls the factory again. -/
theorem Create_throw_with_parameters_example :
    (Create [pluginThrows] PT_Robot "Foo arg").plugins.map (fun q => q.badInterfaces) =
      [[(PT_Robot, "Foo arg")]] ∧
    (Create [pluginThrows] PT_Robot "Foo arg").plugins.map
      (fun q => q.HasInterface PT_Robot "Foo") = [true] ∧
    Call.OpenRAVECreateInterface 0 PT_Robot "Foo arg" ∈
      (Create (Create [pluginThrows] PT_Robot "Foo arg").plugins PT_Robot "Foo arg").calls := by
  decide

/-- What `Create` does with an instance of another declared type than the
requested one, once the scan has reached its plugin: the interface name is
blacklisted on the plugin, the scan goes on with the next plugin, and what
`Create` returns is what the scan of the later plugins yields. -/
theorem Create_mismatch_step (pre post : List RavePlugin) (p : RavePlugin)
    (type : InterfaceType) (name : String) (inst : InterfaceBase)
    (hne : name.data ≠ []) (hsp : name.data.head? ≠ some ' ')
    (hpre : ∀ q ∈ pre, q.HasInterface type (substr0 name (position name)) = true →
      q.OpenRAVECreateInterface type name ≠ .threwOther ∧
      ∀ made, q.OpenRAVECreateInterface type name = .returned (some made) →
        made.interfaceType ≠ type)
    (hhas : p.HasInterface type (substr0 name (position name)) = true)
    (hcreate : p.OpenRAVECreateInterface type name = .returned (some inst))
    (htype : inst.interfaceType ≠ type) :
    (Create (pre ++ p :: post) type name).plugins[pre.length]? =
      some (p.AddBadInterface type (substr0 name (position name))) ∧
    Call.AddBadInterface pre.length type (substr0 name (position name)) ∈
      (Create (pre ++ p :: post) type name).calls ∧
    (∀ q qs, post = q :: qs →
      Call.HasInterface (pre.length + 1) type (substr0 name (position name)) ∈
        (Create (pre ++ p :: post) type name).calls) ∧
    (Create (pre ++ p :: post) type name).pointer =
      finalCheck type (robotCheck type
        (scanPlugins type name (substr0 name (position name)) none (pre.length + 1)
          post).pointer) := by
  have hpre' : ∀ q ∈ pre, stops type name (substr0 name (position name)) q = false :=
    fun q hq => (not_stops_iff type name _ q).2 (hpre q hq)
  have hpass : stops type name (substr0 name (position name)) p = false := by
    simp [stops, satisfies, escapes, made, hcreate, htype]
  have hv : visit type name (substr0 name (position name)) p =
      p.AddBadInterface type (substr0 name (position name)) := by
    simp [visit, hhas, hcreate, htype]
  have hvc : visitCalls type name (substr0 name (position name)) pre.length p =
      [Call.HasInterface pre.length type (substr0 name (position name)),
        Call.OpenRAVECreateInterface pre.length type name,
        Call.AddBadInterface pre.length type (substr0 name (position name))] := by
    simp [visitCalls, hhas, hcreate, htype]
  rw [Create_passes_over pre post p type name hne hsp hpre' hpass, hv, hvc]
  refine ⟨getElem?_map_visit_append type name _ pre _ _, ?_, ?_, rfl⟩
  · simp
  · intro q qs hpost
    subst hpost
    apply List.mem_append_right
    apply List.mem_append_right
    exact hasInterface_mem_scan_cons type name _ (pre.length + 1) q qs

/-- C5 (amended): `AddVirtualPlugin(T, X, f)` appends exactly one virtual
descriptor to the plugin list and leaves the library handles alone, and the
registry's `HasInterface(T, X)` is true afterwards. No `Create` performs a
library load, and no `Create` calls the factory of any one descriptor more
than once. For a non-empty `X` without a space, `Create(env, T, X)` calls the
factory of the appended descriptor, which is `f`, exactly once when the scan
reaches that descriptor with `(T, X)` not blacklisted on it, that is when no
earlier plugin with the interface returns an instance of type `T` or throws
something that is not a `std::exception`; this is the case right after
`AddVirtualPlugin` on a registry none of whose plugins ends the scan. -/
theorem AddVirtualPlugin_then_Create (db : DynamicRaveDatabase) (T : InterfaceType) (X : String)
    (f : String → CreateOutcome) (hne : X.data ≠ []) (hsp : ' ' ∉ X.data) :
    (AddVirtualPlugin db T X f)._vPlugins = db._vPlugins ++ [VirtualPlugin T X f] ∧
    (VirtualPlugin T X f).isVirtual = true ∧
    (AddVirtualPlugin db T X f)._mapLibraryHandles = db._mapLibraryHandles ∧
    HasInterface (AddVirtualPlugin db T X f)._vPlugins T X = true ∧
    (∀ (ps : List RavePlugin) (path : String), Call.dlopen path ∉ (Create ps T X).calls) ∧
    (∀ (ps : List RavePlugin) (j : Nat),
      (Create ps T X).calls.count (Call.OpenRAVECreateInterface j T X) ≤ 1) ∧
    (∀ (pre post : List RavePlugin) (bad : List (InterfaceType × String)),
      (∀ q ∈ pre, q.HasInterface T X = true →
        q.OpenRAVECreateInterface T X ≠ .threwOther ∧
        ∀ made, q.OpenRAVECreateInterface T X = .returned (some made) →
          made.interfaceType ≠ T) →
      (T, X) ∉ bad →
        (Create (pre ++ { VirtualPlugin T X f with badInterfaces := bad } :: post) T X).calls.count
          (Call.OpenRAVECreateInterface pre.length T X) = 1) ∧
    ((∀ q ∈ db._vPlugins, q.HasInterface T X = true →
        q.OpenRAVECreateInterface T X ≠ .threwOther ∧
        ∀ made, q.OpenRAVECreateInterface T X = .returned (some made) →
          made.interfaceType ≠ T) →
      (Create (AddVirtualPlugin db T X f)._vPlugins T X).calls.count
        (Call.OpenRAVECreateInterface db._vPlugins.length T X) = 1) := by
  have hhead := head_ne_space_of_no_space X hne hsp
  have hin : substr0 X (position X) = X := substr0_position_of_no_space X hsp
  have hreach : ∀ (pre post : List RavePlugin) (bad : List (InterfaceType × String)),
      (∀ q ∈ pre, q.HasInterface T X = true →
        q.OpenRAVECreateInterface T X ≠ .threwOther ∧
        ∀ made, q.OpenRAVECreateInterface T X = .returned (some made) →
          made.interfaceType ≠ T) →
      (T, X) ∉ bad →
        (Create (pre ++ { VirtualPlugin T X f with badInterfaces := bad } :: post) T X).calls.count
          (Call.OpenRAVECreateInterface pre.length T X) = 1 := by
    intro pre post bad hpre hbad
    have hpre' : ∀ q ∈ pre, stops T X X q = false :=
      fun q hq => (not_stops_iff T X X q).2 (hpre q hq)
    have hhas : RavePlugin.HasInterface { VirtualPlugin T X f with badInterfaces := bad } T X
        = true := by
      simp [RavePlugin.HasInterface, VirtualPlugin, hbad]
    rw [Create_eq_scan _ T X hne hhead, hin, scan_append T X X pre _ 0 hpre']
    simp only [Nat.zero_add, List.count_append]
    rw [count_create_scan_cons_of_has T X X pre.length _ post hhas]
    have hzero : (visitAllCalls T X X 0 pre).count
        (Call.OpenRAVECreateInterface pre.length T X) = 0 := by
      rw [List.count_eq_zero]
      intro hmem
      have := create_mem_visitAllCalls T X X pre 0 pre.length T X hmem
      omega
    rw [hzero]
  refine ⟨rfl, rfl, rfl, ?_, ?_, ?_, hreach, ?_⟩
  · simp [HasInterface, AddVirtualPlugin, VirtualPlugin, RavePlugin.HasInterface]
  · intro ps path
    rcases Create_calls ps T X with h | ⟨n, iname, h⟩
    · rw [h]; simp
    · rw [h]; exact dlopen_not_mem_scan T n iname ps 0 path
  · intro ps j
    rcases Create_calls ps T X with h | ⟨n, iname, h⟩
    · rw [h]; simp
    · rw [h]; exact count_create_scan_le T n iname ps 0 j T X
  · intro hdb
    have := hreach db._vPlugins [] [] hdb (by simp)
    exact this

/-- Witness of C5 (amended): a registry whose plugin does not provide
`(Robot, "Foo")`, extended by a virtual plugin for it. -/
theorem AddVirtualPlugin_then_Create_witness :
    HasInterface
      (AddVirtualPlugin databaseX PT_Robot "Foo" (fun _ => .returned (some exampleRobot)))._vPlugins
      PT_Robot "Foo" = true ∧
    (Create
      (AddVirtualPlugin databaseX PT_Robot "Foo" (fun _ => .returned (some exampleRobot)))._vPlugins
      PT_Robot "Foo").calls.count
        (Call.OpenRAVECreateInterface databaseX._vPlugins.length PT_Robot "Foo") = 1 :=
  have h := AddVirtualPlugin_then_Create databaseX PT_Robot "Foo"
    (fun _ => .returned (some exampleRobot)) (by decide) (by decide)
  ⟨h.2.2.2.1, h.2.2.2.2.2.2.2 (by
    intro q hq hhas
    simp only [databaseX, List.mem_singleton] at hq
    subst hq
    exact absurd hhas (by decide))⟩

/-- Counterexample to C5 as stated: after `AddVirtualPlugin(Robot, "X", f)` on
a registry whose earlier plugin already provides `(Robot, "X")`,
`Create(env, Robot, "X")` does not call `f` at all; on an empty registry
with an `f` that throws a `std::exception`, the first `Create` calls `f` once
and the second one not at all; and with an `f` that returns null, registered
twice, one `Create` calls `f` twice, once for each descriptor. -/
theorem AddVirtualPlugin_then_Create_counterexample :
    ((Create
      (AddVirtualPlugin databaseX PT_Robot "X" (fun _ => .returned (some exampleRobot)))._vPlugins
      PT_Robot "X").calls.count (Call.OpenRAVECreateInterface 1 PT_Robot "X") = 0) ∧
    ((Create (AddVirtualPlugin emptyDatabase PT_Robot "X" (fun _ => .threw))._vPlugins
      PT_Robot "X").calls.count (Call.OpenRAVECreateInterface 0 PT_Robot "X") = 1 ∧
     (Create
        (Create (AddVirtualPlugin emptyDatabase PT_Robot "X" (fun _ => .threw))._vPlugins
          PT_Robot "X").plugins
        PT_Robot "X").calls.count (Call.OpenRAVECreateInterface 0 PT_Robot "X") = 0) ∧
    ((Create
      (AddVirtualPlugin (AddVirtualPlugin emptyDatabase PT_Robot "X" (fun _ => .returned none))
        PT_Robot "X" (fun _ => .returned none))._vPlugins
      PT_Robot "X").calls =
      [Call.HasInterface 0 PT_Robot "X", Call.OpenRAVECreateInterface 0 PT_Robot "X",
        Call.HasInterface 1 PT_Robot "X", Call.OpenRAVECreateInterface 1 PT_Robot "X"]) := by
  decide

/-- C6: the de-duplication loop of `Init` turns every list of search paths
into the reference keep-first de-duplication of it: no string occurs twice in
the result, the result has the same members as the input, it is a sublist of
the input (the survivors keep their order), and `["/a", "/b", "/a"]` becomes
`["/a", "/b"]`. -/
theorem Init_dedup_keeps_first_occurrence (vplugindirs : List String) :
    dedupPluginDirs vplugindirs = keepFirstOccurrence vplugindirs ∧
    (dedupPluginDirs vplugindirs).Nodup ∧
    (∀ s, s ∈ dedupPluginDirs vplugindirs ↔ s ∈ vplugindirs) ∧
    (dedupPluginDirs vplugindirs).Sublist vplugindirs ∧
    dedupPluginDirs ["/a", "/b", "/a"] = ["/a", "/b"] := by
  rw [dedupPluginDirs_eq]
  exact ⟨rfl, nodup_keepFirstOccurrence _, mem_keepFirstOccurrence _,
    keepFirstOccurrence_sublist _, by decide⟩

/-- C8 (amended): `ReloadPlugins` opens the libraries at the recorded paths of
the snapshot's descriptors, one per descriptor and in list order, up to and
including the first load that an exception leaves, which is a load whose
factory throws something that is not a `std::exception`; that exception
leaves `ReloadPlugins` and the later descriptors are not attempted. When no
load is left by an exception, there is exactly one load per descriptor of the
snapshot. In every case the plugin list before the call is a prefix of the
plugin list after it. On a registry without plugins it makes no call and
returns the registry as it was. -/
theorem ReloadPlugins_only_appends (loader : Loader) (db : DynamicRaveDatabase)
    (h : ∀ q ∈ db._vPlugins, loadEscapes loader q.pluginPath = false) :
    ((ReloadPlugins loader db).calls =
        db._vPlugins.map (fun plugin => Call.dlopen plugin.pluginPath) ∧
      (ReloadPlugins loader db).escaped = false) ∧
    (∀ state : DynamicRaveDatabase,
      (ReloadPlugins loader state).calls =
          (attemptedPaths loader (state._vPlugins.map (fun plugin => plugin.pluginPath))).map
            Call.dlopen ∧
        (ReloadPlugins loader state).calls <+:
          state._vPlugins.map (fun plugin => Call.dlopen plugin.pluginPath) ∧
        (ReloadPlugins loader state).escaped =
          state._vPlugins.any (fun plugin => loadEscapes loader plugin.pluginPath) ∧
        state._vPlugins <+: (ReloadPlugins loader state).db._vPlugins) ∧
    (∀ (handles : List (String × DynamicLibrary)) (dirs : List String),
      ReloadPlugins loader ⟨[], handles, dirs⟩ = ⟨⟨[], handles, dirs⟩, [], false⟩) := by
  have hgen : ∀ state : DynamicRaveDatabase,
      (ReloadPlugins loader state).calls =
          (attemptedPaths loader (state._vPlugins.map (fun plugin => plugin.pluginPath))).map
            Call.dlopen ∧
        (ReloadPlugins loader state).calls <+:
          state._vPlugins.map (fun plugin => Call.dlopen plugin.pluginPath) ∧
        (ReloadPlugins loader state).escaped =
          state._vPlugins.any (fun plugin => loadEscapes loader plugin.pluginPath) ∧
        state._vPlugins <+: (ReloadPlugins loader state).db._vPlugins := by
    intro state
    obtain ⟨h1, h2, h3⟩ := loadCandidates_spec loader
      (state._vPlugins.map (fun plugin => plugin.pluginPath)) ⟨state, [], false⟩
    simp only [ReloadPlugins, reloadLoop_eq_loadCandidates]
    refine ⟨by simpa using h1, ?_, ?_, h2⟩
    · rw [h1]
      have hp := (attemptedPaths_isPrefix loader
        (state._vPlugins.map (fun plugin => plugin.pluginPath))).map Call.dlopen
      simpa [List.map_map, Function.comp_def] using hp
    · rw [h3 rfl]
      generalize state._vPlugins = l
      induction l with
      | nil => rfl
      | cons q rest ih => simp only [List.map_cons, List.any_cons, ih]
  refine ⟨?_, hgen, fun _ _ => rfl⟩
  obtain ⟨h1, _, h3, _⟩ := hgen db
  have hpaths : ∀ path ∈ db._vPlugins.map (fun plugin => plugin.pluginPath),
      loadEscapes loader path = false := by
    intro path hpath
    obtain ⟨q, hq, rfl⟩ := List.mem_map.1 hpath
    exact h q hq
  refine ⟨?_, ?_⟩
  · rw [h1, attemptedPaths_of_no_escape loader _ hpaths, List.map_map]
    rfl
  · rw [h3, List.any_eq_false]
    intro q hq
    simp [h q hq]

/-- Witness of C8 (amended): a registry with one plugin, whose reload is not
left by an exception. -/
theorem ReloadPlugins_only_appends_witness :
    (ReloadPlugins exampleLoader databaseFcl).calls = [Call.dlopen "/plugins/libfclrave.so"] ∧
    (ReloadPlugins exampleLoader databaseFcl).escaped = false ∧
    (ReloadPlugins exampleLoader databaseFcl).db._vPlugins.map (fun q => q.pluginPath) =
      ["/plugins/libfclrave.so", "/plugins/libfclrave.so"] :=
  have h := ReloadPlugins_only_appends exampleLoader databaseFcl (by
    intro q hq
    simp only [databaseFcl, List.mem_singleton] at hq
    subst hq
    decide)
  ⟨h.1.1, h.1.2, by decide⟩

/-- Counterexample to C8 as stated: a virtual plugin is registered and `Init`
loads the plugin of `/plugins/libfclrave.so`, so that the registry holds two
descriptors. The library at the virtual plugin's path has a factory that
throws something that is not a `std::exception`: `ReloadPlugins` is left by
that exception after the first load, and no load is attempted for the second
descriptor. -/
theorem ReloadPlugins_counterexample :
    (runOperations hostInternalThrows
      [.AddVirtualPlugin PT_Robot "X" (fun _ => .returned none), .Init]
      emptyDatabase)._vPlugins.map (fun q => q.pluginPath) =
      ["__internal__", "/plugins/libfclrave.so"] ∧
    (ReloadPlugins hostInternalThrows.loader
      (runOperations hostInternalThrows
        [.AddVirtualPlugin PT_Robot "X" (fun _ => .returned none), .Init]
        emptyDatabase)).calls = [Call.dlopen "__internal__"] ∧
    (ReloadPlugins hostInternalThrows.loader
      (runOperations hostInternalThrows
        [.AddVirtualPlugin PT_Robot "X" (fun _ => .returned none), .Init]
        emptyDatabase)).escaped = true := by
  decide

/-- C9, evaluated where the code departs from it: the registry holds the
descriptor with display name `fclrave` loaded from `/plugins/libfclrave.so`,
a file that is still a plugin. `LoadPlugin("fclrave")` matches it by display
name and drops it, then opens the library at `fclrave`, not at the
descriptor's path; the load fails and the registry is left without the
plugin. Matched by path, the same descriptor is replaced by a fresh one at
the end of the list. -/
theorem LoadPlugin_by_display_name_loads_the_name :
    (LoadPlugin exampleLoader databaseFcl "fclrave").calls = [Call.dlopen "fclrave"] ∧
    (LoadPlugin exampleLoader databaseFcl "fclrave").ok = false ∧
    (LoadPlugin exampleLoader databaseFcl "fclrave").db._vPlugins.map
      (fun plugin => plugin.pluginPath) = [] ∧
    (LoadPlugin exampleLoader databaseFcl "/plugins/libfclrave.so").calls =
      [Call.dlopen "/plugins/libfclrave.so"] ∧
    (LoadPlugin exampleLoader databaseFcl "/plugins/libfclrave.so").ok = true ∧
    (LoadPlugin exampleLoader databaseFcl "/plugins/libfclrave.so").db._vPlugins.map
      (fun plugin => plugin.pluginPath) = ["/plugins/libfclrave.so"] := by
  decide

/-- C11 (amended): as long as no hook throws, `OnRaveInitialized` and
`OnRavePreDestroy` call the hook of every descriptor of the list, each exactly
once and in registration order. When the hook of a descriptor throws, the
hooks of the descriptors up to and including it have been called, the
exception leaves the broadcast, and the hook of no later descriptor is
called. -/
theorem broadcast_until_first_throw :
    (∀ ps : List RavePlugin, (∀ q ∈ ps, q.OnRaveInitialized = .returned) →
      OnRaveInitialized ps = ⟨List.range ps.length, false⟩) ∧
    (∀ ps : List RavePlugin, (∀ q ∈ ps, q.OnRavePreDestroy = .returned) →
      OnRavePreDestroy ps = ⟨List.range ps.length, false⟩) ∧
    (∀ (pre post : List RavePlugin) (p : RavePlugin),
      (∀ q ∈ pre, q.OnRaveInitialized = .returned) → p.OnRaveInitialized = .threw →
        OnRaveInitialized (pre ++ p :: post) = ⟨List.range (pre.length + 1), true⟩) ∧
    (∀ (pre post : List RavePlugin) (p : RavePlugin),
      (∀ q ∈ pre, q.OnRavePreDestroy = .returned) → p.OnRavePreDestroy = .threw →
        OnRavePreDestroy (pre ++ p :: post) = ⟨List.range (pre.length + 1), true⟩) :=
  ⟨fun ps h => hookLoop_all_returned _ ps h,
    fun ps h => hookLoop_all_returned _ ps h,
    fun pre post p h hp => hookLoop_first_throw _ pre post p h hp,
    fun pre post p h hp => hookLoop_first_throw _ pre post p h hp⟩

/-- Witness of C11 (amended): three plugins whose hooks return, and a
throwing plugin between two that return. -/
theorem broadcast_until_first_throw_witness :
    OnRaveInitialized [pluginGood, pluginLate, pluginOther] = ⟨[0, 1, 2], false⟩ ∧
    OnRavePreDestroy [pluginGood, pluginLate, pluginOther] = ⟨[0, 1, 2], false⟩ ∧
    OnRaveInitialized ([pluginGood] ++ pluginHookThrows :: [pluginLate]) = ⟨[0, 1], true⟩ ∧
    OnRavePreDestroy ([pluginGood] ++ pluginHookThrows :: [pluginLate]) = ⟨[0, 1], true⟩ :=
  have hret : ∀ q ∈ [pluginGood, pluginLate, pluginOther],
      q.OnRaveInitialized = .returned ∧ q.OnRavePreDestroy = .returned := by
    intro q hq
    simp only [List.mem_cons, List.mem_singleton, List.not_mem_nil, or_false] at hq
    rcases hq with h | h | h <;> subst h <;> exact ⟨rfl, rfl⟩
  have hone : ∀ q ∈ [pluginGood],
      q.OnRaveInitialized = .returned ∧ q.OnRavePreDestroy = .returned := by
    intro q hq
    simp only [List.mem_singleton] at hq
    subst hq
    exact ⟨rfl, rfl⟩
  ⟨broadcast_until_first_throw.1 _ (fun q hq => (hret q hq).1),
    broadcast_until_first_throw.2.1 _ (fun q hq => (hret q hq).2),
    broadcast_until_first_throw.2.2.1 [pluginGood] [pluginLate] pluginHookThrows
      (fun q hq => (hone q hq).1) rfl,
    broadcast_until_first_throw.2.2.2 [pluginGood] [pluginLate] pluginHookThrows
      (fun q hq => (hone q hq).2) rfl⟩

/-- Counterexample to C11 as stated: the hook of the first plugin throws, and
the hook of the second plugin is not called, in either broadcast. -/
theorem broadcast_not_isolated_counterexample :
    pluginHookThrows.OnRaveInitialized = .threw ∧
    1 ∉ (OnRaveInitialized [pluginHookThrows, pluginGood]).called ∧
    pluginHookThrows.OnRavePreDestroy = .threw ∧
    1 ∉ (OnRavePreDestroy [pluginHookThrows, pluginGood]).called := by
  decide

/-- Every instance that `Create` returns has the requested declared type. -/
theorem Create_pointer_type (ps : List RavePlugin) (type : InterfaceType) (name : String)
    (res : InterfaceBase) (h : (Create ps type name).pointer = some res) :
    res.interfaceType = type := by
  cases hd : (createDefault type name).1 with
  | some p =>
    have hp : p.interfaceType = type ∧ type = PT_KinBody := by
      unfold createDefault at hd
      split at hd
      · split at hd <;> simp at hd
        subst hd; exact ⟨rfl, rfl⟩
      · simp at hd
    have hc : (Create ps type name).pointer = finalCheck type (robotCheck type (some p)) := by
      simp [Create, hd]
    rw [hc] at h
    obtain ⟨hp1, hp2⟩ := hp
    subst hp2
    simp [robotCheck, finalCheck, hp1] at h
    rw [← h]; exact hp1
  | none =>
    by_cases hpos : position (createDefault type name).2 = 0
    · simp [Create, hd, hpos] at h
    · rw [Create_of_scan ps type name hd hpos] at h
      simp only at h
      cases hx : (scanPlugins type (createDefault type name).2
            (substr0 (createDefault type name).2 (position (createDefault type name).2))
            none 0 ps).pointer with
      | none => simp [hx, robotCheck, finalCheck] at h
      | some x =>
        have hxt := scan_pointer_type _ _ _ _ _ _ hx
        rw [hx] at h
        simp only [robotCheck] at h
        split at h
        · simp [finalCheck] at h
        · simp only [finalCheck, hxt, if_true, Option.some.injEq] at h
          rw [← h]; exact hxt

/-- C12 (amended): `Create` has no substitution rule. Every instance that
`Create` returns has the requested declared type. An instance of declared
type Robot handed out for a KinBody request is treated as every other
mismatch, once the scan has reached its plugin: the interface name is
blacklisted on the plugin, the scan goes on with the next plugin, and what
`Create` returns is what the scan of the later plugins yields, which is an
empty result when there is no later plugin. -/
theorem Create_rejects_every_mismatch :
    (∀ (ps : List RavePlugin) (type : InterfaceType) (name : String) (res : InterfaceBase),
      (Create ps type name).pointer = some res → res.interfaceType = type) ∧
    (∀ (pre post : List RavePlugin) (p : RavePlugin) (name : String) (inst : InterfaceBase),
      name.data ≠ [] → name.data.head? ≠ some ' ' →
      (∀ q ∈ pre, q.HasInterface PT_KinBody (substr0 name (position name)) = true →
        q.OpenRAVECreateInterface PT_KinBody name ≠ .threwOther ∧
        ∀ made, q.OpenRAVECreateInterface PT_KinBody name = .returned (some made) →
          made.interfaceType ≠ PT_KinBody) →
      p.HasInterface PT_KinBody (substr0 name (position name)) = true →
      p.OpenRAVECreateInterface PT_KinBody name = .returned (some inst) →
      inst.interfaceType = PT_Robot →
        (Create (pre ++ p :: post) PT_KinBody name).plugins[pre.length]? =
          some (p.AddBadInterface PT_KinBody (substr0 name (position name))) ∧
        Call.AddBadInterface pre.length PT_KinBody (substr0 name (position name)) ∈
          (Create (pre ++ p :: post) PT_KinBody name).calls ∧
        (∀ q qs, post = q :: qs →
          Call.HasInterface (pre.length + 1) PT_KinBody (substr0 name (position name)) ∈
            (Create (pre ++ p :: post) PT_KinBody name).calls) ∧
        (Create (pre ++ p :: post) PT_KinBody name).pointer =
          finalCheck PT_KinBody (robotCheck PT_KinBody
            (scanPlugins PT_KinBody name (substr0 name (position name)) none (pre.length + 1)
              post).pointer) ∧
        (post = [] → (Create (pre ++ p :: post) PT_KinBody name).pointer = none)) := by
  refine ⟨Create_pointer_type, ?_⟩
  intro pre post p name inst hne hsp hpre hhas hcreate htype
  have hmis : inst.interfaceType ≠ PT_KinBody := by
    rw [htype]; decide
  obtain ⟨h1, h2, h3, h4⟩ :=
    Create_mismatch_step pre post p PT_KinBody name inst hne hsp hpre hhas hcreate hmis
  refine ⟨h1, h2, h3, h4, ?_⟩
  intro hpost
  subst hpost
  rw [h4]
  rfl

/-- Witness of C12 (amended): the plugin hands out a Robot for
`(KinBody, "Foo")`, in front of a plugin that does not provide it. -/
theorem Create_rejects_every_mismatch_witness :
    (Create ([] ++ pluginRobotAsBody :: [pluginGood]) PT_KinBody "Foo").plugins[0]? =
      some (pluginRobotAsBody.AddBadInterface PT_KinBody "Foo") ∧
    Call.AddBadInterface 0 PT_KinBody "Foo" ∈
      (Create ([] ++ pluginRobotAsBody :: [pluginGood]) PT_KinBody "Foo").calls ∧
    Call.HasInterface 1 PT_KinBody "Foo" ∈
      (Create ([] ++ pluginRobotAsBody :: [pluginGood]) PT_KinBody "Foo").calls ∧
    (Create ([] ++ pluginRobotAsBody :: []) PT_KinBody "Foo").pointer = none ∧
    (∀ res, (Create [pluginGood] PT_Robot "Foo").pointer = some res →
      res.interfaceType = PT_Robot) :=
  have h := Create_rejects_every_mismatch.2 [] [pluginGood] pluginRobotAsBody "Foo" exampleRobot
    (by decide) (by decide) (by simp) (by decide) rfl rfl
  have h0 := Create_rejects_every_mismatch.2 [] [] pluginRobotAsBody "Foo" exampleRobot
    (by decide) (by decide) (by simp) (by decide) rfl rfl
  ⟨h.1, h.2.1, h.2.2.1 pluginGood [] rfl, h0.2.2.2.2 rfl,
    fun res hres => Create_rejects_every_mismatch.1 [pluginGood] PT_Robot "Foo" res hres⟩

/-- Counterexample to C12 as stated: the plugin provides `(KinBody, "Foo")`
and its factory returns an instance whose declared type is Robot. The final
check alone would let that instance through for a KinBody request, but the
type test inside the scan has already discarded it:
`Create(env, KinBody, "Foo")` returns an empty result and `(KinBody, "Foo")`
is blacklisted on the plugin. -/
theorem Create_Robot_for_KinBody_counterexample :
    pluginRobotAsBody.HasInterface PT_KinBody "Foo" = true ∧
    pluginRobotAsBody.OpenRAVECreateInterface PT_KinBody "Foo" = .returned (some exampleRobot) ∧
    exampleRobot.interfaceType = PT_Robot ∧
    finalCheck PT_KinBody (robotCheck PT_KinBody (some exampleRobot)) = some exampleRobot ∧
    (Create [pluginRobotAsBody] PT_KinBody "Foo").pointer = none ∧
    (Create [pluginRobotAsBody] PT_KinBody "Foo").escaped = false ∧
    (Create [pluginRobotAsBody] PT_KinBody "Foo").plugins.map (fun q => q.badInterfaces) =
      [[(PT_KinBody, "Foo")]] := by
  decide

/-- C14: for a non-empty name that does not start with a space, the key that
`Create` hands to every `HasInterface` call is the prefix of the name before
its first space, the whole name when it has no space, and every factory call
receives the name as it was given, which is the key, the space, and after it
the trailing parameter string unchanged. -/
theorem Create_name_split (ps : List RavePlugin) (type : InterfaceType) (name : String)
    (hne : name.data ≠ []) (hsp : name.data.head? ≠ some ' ') :
    substr0 name (position name) = lookupKey name ∧
    (∀ j t n, Call.HasInterface j t n ∈ (Create ps type name).calls →
      t = type ∧ n = lookupKey name) ∧
    (∀ j t n, Call.OpenRAVECreateInterface j t n ∈ (Create ps type name).calls →
      t = type ∧ n = name) ∧
    (' ' ∉ name.data → lookupKey name = name) ∧
    (' ' ∈ name.data →
      name.data = (lookupKey name).data ++ ' ' :: (trailingParameters name).data) := by
  refine ⟨substr0_position_eq_lookupKey name, ?_, ?_, lookupKey_of_no_space name, ?_⟩
  · intro j t n h
    rw [Create_eq_scan ps type name hne hsp] at h
    rw [← substr0_position_eq_lookupKey]
    exact hasInterface_mem_scan type name _ ps 0 j t n h
  · intro j t n h
    rw [Create_eq_scan ps type name hne hsp] at h
    obtain ⟨ht, hn, _⟩ := create_mem_scan type name _ ps 0 j t n h
    exact ⟨ht, hn⟩
  · intro h
    exact split_at_first_space name.data h

/-- Witness of C14: a name with creation parameters after the first space. -/
theorem Create_name_split_witness :
    (Create [pluginGood] PT_Robot "Foo a  b").calls =
      [Call.HasInterface 0 PT_Robot "Foo", Call.OpenRAVECreateInterface 0 PT_Robot "Foo a  b"] ∧
    lookupKey "Foo a  b" = "Foo" ∧ trailingParameters "Foo a  b" = "a  b" ∧
    (∀ j t n, Call.HasInterface j t n ∈ (Create [pluginGood] PT_Robot "Foo a  b").calls →
      t = PT_Robot ∧ n = lookupKey "Foo a  b") :=
  ⟨by decide, by decide, by decide,
    (Create_name_split [pluginGood] PT_Robot "Foo a  b" (by decide) (by decide)).2.1⟩

/-- C13: every operation (`Init`, `LoadPlugin`, `ReloadPlugins`,
`AddVirtualPlugin`, `Create`, `Destroy`) preserves the invariant that the path
of every dynamic descriptor of the plugin list is a key of
`_mapLibraryHandles`, and keeps every entry of `_mapLibraryHandles` in place;
so the invariant holds after every sequence of operations from the empty
registry, and no sequence of operations removes a handle. `Destroy` empties
the plugin list and leaves `_mapLibraryHandles` as it was, and so does the
rotate-and-pop of `LoadPlugin`. -/
theorem registry_invariant (host : Host) (db : DynamicRaveDatabase) (op : Operation)
    (h : handlesCoverPlugins db = true) :
    handlesCoverPlugins (op.apply host db) = true ∧
    db._mapLibraryHandles <+: (op.apply host db)._mapLibraryHandles ∧
    (∀ ops : List Operation, handlesCoverPlugins (runOperations host ops emptyDatabase) = true) ∧
    (∀ ops : List Operation,
      db._mapLibraryHandles <+: (runOperations host ops db)._mapLibraryHandles) ∧
    ((Destroy db)._vPlugins = [] ∧ (Destroy db)._mapLibraryHandles = db._mapLibraryHandles) ∧
    (∀ i : Nat, i < db._vPlugins.length →
      rotateAndPop db._vPlugins i = db._vPlugins.eraseIdx i ∧
      handlesCoverPlugins { db with _vPlugins := rotateAndPop db._vPlugins i } = true ∧
      ({ db with _vPlugins := rotateAndPop db._vPlugins i } : DynamicRaveDatabase)._mapLibraryHandles
        = db._mapLibraryHandles) := by
  refine ⟨(Operation_apply_preserves host db op).1 h, (Operation_apply_preserves host db op).2,
    fun ops => (runOperations_preserves host ops emptyDatabase).1 (by decide),
    fun ops => (runOperations_preserves host ops db).2, ⟨?_, rfl⟩, ?_⟩
  · simp only [Destroy]
    exact destroyLoop_eq_nil _ _ (Nat.le_refl _)
  · intro i hi
    refine ⟨rotateAndPop_eq_eraseIdx _ _ hi, ?_, rfl⟩
    rw [rotateAndPop_eq_eraseIdx _ _ hi]
    exact (Preserves.of_subset db _ db._vPluginDirs
      (fun p hp => (List.eraseIdx_sublist _ _).subset hp)).1 h

/-- Witness of C13: `Init` on the empty registry with the example host, which
loads one plugin, and a run that loads, reloads by display name and
destroys. -/
theorem registry_invariant_witness :
    handlesCoverPlugins (Operation.Init.apply exampleHost emptyDatabase) = true ∧
    (Operation.Init.apply exampleHost emptyDatabase)._vPlugins.map (fun p => p.pluginPath) =
      ["/plugins/libfclrave.so"] ∧
    (Operation.Init.apply exampleHost emptyDatabase)._mapLibraryHandles.map Prod.fst =
      ["/plugins/libfclrave.so"] ∧
    (runOperations exampleHost [.Init, .LoadPlugin "fclrave", .Destroy]
      emptyDatabase)._mapLibraryHandles.map Prod.fst = ["/plugins/libfclrave.so"] :=
  ⟨(registry_invariant exampleHost emptyDatabase .Init (by decide)).1, by decide, by decide,
    by decide⟩

/-- C15, evaluated where the code departs from it: for every host, registry,
path and value of `recurse`, `_LoadPluginsFromPath` passes to `_LoadPlugin`
the non-empty regular files with the platform's extension at or below the
path, at any depth and in walk order, up to and including the first load that
an exception leaves (all of them when there is none), so the flag has no
effect on what is attempted. With `recurse` false on a directory holding a
plugin file and a subdirectory with a further candidate, the file inside the
subdirectory is attempted too, and the text file next to it is not. -/
theorem _LoadPluginsFromPath_ignores_recurse :
    (∀ (host : Host) (db : DynamicRaveDatabase) (strpath : String) (recurse : Bool),
      _LoadPluginsFromPath host db strpath recurse =
          _LoadPluginsFromPath host db strpath true ∧
        (_LoadPluginsFromPath host db strpath recurse).calls =
          (attemptedPaths host.loader
            (FsNode.pluginFiles host.PLUGIN_EXT (host.lookup strpath))).map Call.dlopen ∧
        (_LoadPluginsFromPath host db strpath recurse).calls =
          (if (FsNode.pluginFiles host.PLUGIN_EXT (host.lookup strpath)).any
              (loadEscapes host.loader)
            then (attemptedPaths host.loader
              (FsNode.pluginFiles host.PLUGIN_EXT (host.lookup strpath))).map Call.dlopen
            else (FsNode.pluginFiles host.PLUGIN_EXT (host.lookup strpath)).map Call.dlopen)) ∧
    (_LoadPluginsFromPath exampleHost emptyDatabase "/plugins" false).calls =
      [Call.dlopen "/plugins/libfclrave.so", Call.dlopen "/plugins/sub/libnosymbol.so"] ∧
    (_LoadPluginsFromPath exampleHost emptyDatabase "/plugins" true).calls =
      [Call.dlopen "/plugins/libfclrave.so", Call.dlopen "/plugins/sub/libnosymbol.so"] ∧
    (_LoadPluginsFromPath exampleHost emptyDatabase "/plugins" false).escaped = false := by
  refine ⟨?_, by decide, by decide, by decide⟩
  intro host db strpath recurse
  have hcalls : (_LoadPluginsFromPath host db strpath recurse).calls =
      (attemptedPaths host.loader
        (FsNode.pluginFiles host.PLUGIN_EXT (host.lookup strpath))).map Call.dlopen := by
    rw [_LoadPluginsFromPath_eq]
    have := (loadCandidates_spec host.loader
      (FsNode.pluginFiles host.PLUGIN_EXT (host.lookup strpath)) ⟨db, [], false⟩).1
    simpa using this
  refine ⟨by rw [_LoadPluginsFromPath_eq, _LoadPluginsFromPath_eq], hcalls, ?_⟩
  rw [hcalls]
  split
  · rfl
  · next hany =>
    rw [attemptedPaths_of_no_escape]
    intro path hpath
    have hany' : (FsNode.pluginFiles host.PLUGIN_EXT (host.lookup strpath)).any
        (loadEscapes host.loader) = false := by simpa using hany
    exact (List.any_eq_false.1 hany') path hpath |> fun hn => by simpa using hn

end OpenRAVE
